import Mathlib

/-!
Verification development for the litert/rache resource-cache library.

The definitions below are a shallow embedding of the TypeScript sources:
the Zone orchestrator (`src/libs/Zone.ts`), its data model and the driver
contract (`src/libs/common.ts`).  JavaScript objects used as string-keyed
dictionaries are modelled as association lists with first-match lookup and
in-place overwrite (JS object keys are unique, so first match = only match);
JS template-string rendering of identity values is modelled per declared
kind; asynchronous methods are modelled as pure functions from a zone, a
driver behaviour and the call arguments to a result, the list of error
events emitted, and the trace of driver calls issued.
-/

namespace Rache

/-! ## JavaScript object (string-keyed record) primitives -/

/-- JS `obj[k]` lookup: the value at key `k`, or `none` when absent.
Keys in lists produced by `jsSet` are unique, matching JS objects. -/
def jsGet {α : Type} : List (String × α) → String → Option α
  | [], _ => none
  | p :: rest, k => if p.1 = k then some p.2 else jsGet rest k

/-- JS `obj[k] = v` assignment: overwrite in place when the key is present
(keeping its position, as JS objects keep first-insertion order), append
otherwise. -/
def jsSet {α : Type} : List (String × α) → String → α → List (String × α)
  | [], k, v => [(k, v)]
  | p :: rest, k, v => if p.1 = k then (k, v) :: rest else p :: jsSet rest k v

/-- A sequence of JS assignments `obj[k] = v`, left to right. -/
def jsAssignAll {α : Type} (init : List (String × α)) (kvs : List (String × α)) :
    List (String × α) :=
  kvs.foldl (fun m kv => jsSet m kv.1 kv.2) init

/-! ## Decimal rendering of numbers (JS `${n}` on a number value)

JS renders an integral number inside a template string as its decimal form,
with a leading `-` for negative values.  The digit recursion is expressed
with an explicit fuel argument (the number itself bounds the digit count)
so that it is structural. -/

/-- The decimal digit character for `n < 10` (`'0'` is code 48). -/
def decChar (n : Nat) : Char := Char.ofNat (48 + n)

/-- Numeric value of a decimal digit character. -/
def decVal (c : Char) : Nat := c.toNat - 48

/-- Decimal digits of `n`, most significant first; `fuel` bounds recursion. -/
def natDigitsAux : Nat → Nat → List Char
  | 0, n => [decChar (n % 10)]
  | fuel + 1, n =>
    if n < 10 then [decChar n] else natDigitsAux fuel (n / 10) ++ [decChar (n % 10)]

/-- Decimal digits of a natural number, most significant first. -/
def natDigits (n : Nat) : List Char := natDigitsAux n n

/-- Reads a digit list back as a number (left fold, base 10). -/
def parseDec (l : List Char) : Nat := l.foldl (fun a c => a * 10 + decVal c) 0

/-- JS decimal rendering of an integral number, as characters. -/
def intReprChars : Int → List Char
  | Int.ofNat n => natDigits n
  | Int.negSucc n => '-' :: natDigits (n + 1)

/-- JS decimal rendering of an integral number. -/
def intRepr (n : Int) : String := String.mk (intReprChars n)

/-! ## Base64 (JS `Buffer.toString("base64")`) -/

/-- The base64 alphabet character for a 6-bit value. -/
def b64Char (n : Nat) : Char :=
  if n < 26 then Char.ofNat (65 + n)
  else if n < 52 then Char.ofNat (97 + (n - 26))
  else if n < 62 then Char.ofNat (48 + (n - 52))
  else if n = 62 then '+' else '/'

/-- The 6-bit value of a base64 alphabet character. -/
def b64Val (c : Char) : Nat :=
  if c.toNat ≥ 97 then c.toNat - 97 + 26
  else if c.toNat ≥ 65 then c.toNat - 65
  else if c.toNat ≥ 48 then c.toNat - 48 + 52
  else if c = '+' then 62 else 63

/-- Standard base64 encoding of a byte list (bytes are `Nat`s below 256),
three bytes to four characters, `'='`-padded. -/
def base64Encode : List Nat → List Char
  | [] => []
  | [a] => [b64Char (a / 4), b64Char (a % 4 * 16), '=', '=']
  | [a, b] => [b64Char (a / 4), b64Char (a % 4 * 16 + b / 16), b64Char (b % 16 * 4), '=']
  | a :: b :: c :: rest =>
    b64Char (a / 4) :: b64Char (a % 4 * 16 + b / 16) :: b64Char (b % 16 * 4 + c / 64) ::
      b64Char (c % 64) :: base64Encode rest

/-- Base64 decoding, the left inverse of `base64Encode` on valid bytes. -/
def base64Decode : List Char → List Nat
  | c1 :: c2 :: c3 :: c4 :: rest =>
    if c3 = '=' then [b64Val c1 * 4 + b64Val c2 / 16]
    else if c4 = '=' then
      [b64Val c1 * 4 + b64Val c2 / 16, b64Val c2 % 16 * 16 + b64Val c3 / 4]
    else
      (b64Val c1 * 4 + b64Val c2 / 16) :: (b64Val c2 % 16 * 16 + b64Val c3 / 4) ::
        (b64Val c3 % 4 * 64 + b64Val c4) :: base64Decode rest
  | _ => []

/-! ## Identity values and their rendering (`compileCacheKeyBuilder` switch) -/

/-- `IdentityValueType` from `common.ts`: the declared kind of an identity
field: `"string" | "number" | "buffer" | "boolean"`. -/
inductive IdentityValueType : Type
  | string
  | number
  | buffer
  | boolean
deriving DecidableEq

/-- A concrete JS value supplied for an identity field. -/
inductive Value : Type
  | vStr (s : String)
  | vInt (n : Int)
  | vBytes (bs : List Nat)
  | vBool (b : Bool)
deriving DecidableEq

/-- An identity record: what the compiled key builder receives (`ids`).
Callers supply every declared field (the spec's stated precondition). -/
abbrev IdRecord : Type := String → Value

/-- An identity schema: the declared fields in declared order
(JS object literals keep insertion order for string keys). -/
abbrev Schema : Type := List (String × IdentityValueType)

/-- JS template-string rendering `${v}` for the values modelled here.
A byte buffer inside a template would be UTF-8 decoded by JS; that case is
outside the modelled fragment (buffer-kind fields render via base64, and a
buffer value under a text/number kind does not conform to the schema). -/
def jsDisplay : Value → String
  | Value.vStr s => s
  | Value.vInt n => intRepr n
  | Value.vBool b => if b then "true" else "false"
  | Value.vBytes _ => ""

/-- JS truthiness of a value (used by the compiled `ids.k ? "true" : "false"`
segment for boolean-kind fields). -/
def jsTruthy : Value → Bool
  | Value.vStr s => !(s = "")
  | Value.vInt n => !(n = 0)
  | Value.vBytes _ => true
  | Value.vBool b => b

/-- Base64 rendering `${ids.k.toString("base64")}` of a buffer value.
Calling it on a non-buffer value would be a JS `TypeError`; outside the
modelled fragment it renders as the empty string. -/
def base64OfValue : Value → String
  | Value.vBytes bs => String.mk (base64Encode bs)
  | _ => ""

/-- Rendering of one identity value, by declared kind: the `switch` inside
`compileCacheKeyBuilder` (string/number interpolate the value, buffer
renders base64, boolean renders its truthiness as "true"/"false"). -/
def renderIdentity : IdentityValueType → Value → String
  | IdentityValueType.string, v => jsDisplay v
  | IdentityValueType.number, v => jsDisplay v
  | IdentityValueType.buffer, v => base64OfValue v
  | IdentityValueType.boolean, v => if jsTruthy v then "true" else "false"

/-- Whether a value has the declared kind (buffer values must be bytes). -/
def Value.conformsTo : Value → IdentityValueType → Bool
  | Value.vStr _, IdentityValueType.string => true
  | Value.vInt _, IdentityValueType.number => true
  | Value.vBytes bs, IdentityValueType.buffer => bs.all (fun b => b < 256)
  | Value.vBool _, IdentityValueType.boolean => true
  | _, _ => false

/-- A record conforms to a schema when each declared field's value has the
declared kind. -/
def recordConforms (schema : Schema) (r : IdRecord) : Bool :=
  schema.all fun kv => (r kv.1).conformsTo kv.2

/-- No character of the string is the key delimiter `':'`. -/
def noColon (s : String) : Bool := s.data.all fun c => !(c = ':')

/-- Delimiter-freedom of one field's value: a string-kind value must not
contain `':'`; other kinds render delimiter-free forms by construction. -/
def fieldClean (k : IdentityValueType) (v : Value) : Bool :=
  match k, v with
  | IdentityValueType.string, Value.vStr s => noColon s
  | _, _ => true

/-- Every string-kind field value of the record is free of the delimiter. -/
def textValuesClean (schema : Schema) (r : IdRecord) : Bool :=
  schema.all fun kv => fieldClean kv.2 (r kv.1)

/-! ## The key compiler (`compileCacheKeyBuilder`) -/

/-- JS `Array.prototype.join(":")`. -/
def joinSegs : List String → String
  | [] => ""
  | [s] => s
  | s :: rest => s ++ ":" ++ joinSegs rest

/-- JS truthiness of the optional `attachment` parameter (`if (attachment)`;
an absent or empty string is falsy). -/
def attachTruthy : Option String → Bool
  | none => false
  | some a => !(a = "")

/-- `compileCacheKeyBuilder(resource, entryName, identities, attachment?)`
applied to an identity record.  The source builds the segment template once
(`segs = [resource, entryName]`, `splice(1, 0, "attach", attachment)` when
the attachment name is truthy, then a name segment and a rendered value
segment per declared field) and joins with `":"`; the shallow embedding
fuses the compiled closure with its application. -/
def compileCacheKeyBuilder (resource entryName : String)
    (identities : Schema) (attachment : Option String) (ids : IdRecord) : String :=
  let segs := [resource, entryName]
  let segs :=
    if attachTruthy attachment then
      segs.take 1 ++ ["attach", attachment.getD ""] ++ segs.drop 1
    else segs
  let segs := segs ++ identities.flatMap fun kv => [kv.1, renderIdentity kv.2 (ids kv.1)]
  joinSegs segs

/-- Modelled from the spec: the claimed segment list for a rendered key,
`[resourceName, ("attach", attachmentName if an attachment),
entryOrAttachmentName, (fieldName, renderedValue)*]` in declared field
order (spec §4.1); used to compare the claimed key shape with
`compileCacheKeyBuilder`. -/
def specKeySegments (resource entryName : String)
    (identities : Schema) (attachment : Option String) (ids : IdRecord) : List String :=
  (match attachment with
   | some a => [resource, "attach", a, entryName]
   | none => [resource, entryName]) ++
    identities.flatMap fun kv => [kv.1, renderIdentity kv.2 (ids kv.1)]

/-! ## Cache records and the driver contract (`common.ts`) -/

/-- `CacheBody` from `common.ts`: a stored payload (`Buffer | string`,
modelled as one string type), or `undefined`, the NEVER-EXISTED marker. -/
inductive CacheBody : Type
  | payload (s : String)
  | marker
deriving DecidableEq

/-- The result of `IDriver.get`: a payload, `null` (absent from the store)
or `undefined` (the NEVER-EXISTED marker). -/
inductive GetRes : Type
  | found (s : String)
  | nullRes
  | undefRes
deriving DecidableEq

/-- `ReadResult<T>` from `common.ts` (`T | null | undefined`): a
deserialized value, `null` = unknown, `undefined` = confirmed absent. -/
inductive ReadResult (T : Type) : Type
  | value (v : T)
  | neverExisted
  | unknown
deriving DecidableEq

/-- The `IDriver` contract, as a deterministic behaviour: each method maps
its arguments to a response or a rejection (`Except.error`).  `getMulti`
responds with a total key-to-result map (a JS record read back through
`result[key]`, where an absent key reads as `undefined`). -/
structure Driver : Type where
  usable : Bool
  get : String → Except String GetRes
  getMulti : List String → Except String (String → GetRes)
  set : String → CacheBody → Nat → Except String Bool
  setMulti : List (String × CacheBody) → Nat → Except String Bool
  exists' : String → Except String (Option Bool)
  remove : String → Except String Bool
  removeMulti : List String → Except String Nat

/-- One driver invocation, as recorded in an operation's call trace. -/
inductive DriverCall : Type
  | usable
  | get (key : String)
  | getMulti (keys : List String)
  | set (key : String) (body : CacheBody) (ttl : Nat)
  | setMulti (entries : List (String × CacheBody)) (ttl : Nat)
  | exists' (key : String)
  | remove (key : String)
  | removeMulti (keys : List String)
deriving DecidableEq

/-- Whether a driver call can change the store's contents. -/
def DriverCall.mutatesStore : DriverCall → Bool
  | DriverCall.set _ _ _ => true
  | DriverCall.setMulti _ _ => true
  | DriverCall.remove _ => true
  | DriverCall.removeMulti _ => true
  | _ => false

/-- JS `delete obj[k]`. -/
def jsDelete {α : Type} : List (String × α) → String → List (String × α)
  | [], _ => []
  | p :: rest, k => if p.1 = k then rest else jsDelete rest k |> (p :: ·)

/-- The effect of one driver call on an in-memory key-value store (TTLs are
not modelled: no clock advances within the examined call sequences). -/
def applyCall (store : List (String × CacheBody)) : DriverCall → List (String × CacheBody)
  | DriverCall.set k body _ => jsSet store k body
  | DriverCall.setMulti entries _ => jsAssignAll store entries
  | DriverCall.remove k => jsDelete store k
  | DriverCall.removeMulti ks => ks.foldl jsDelete store
  | _ => store

/-- A well-behaved in-memory driver over a given store, per the `IDriver`
contract: `get` answers the payload, `undefined` for a stored marker and
`null` for an absent key; writes always succeed (their store effect is
`applyCall` on the recorded trace). -/
def memDriver (store : List (String × CacheBody)) : Driver where
  usable := true
  get := fun k =>
    Except.ok (match jsGet store k with
      | none => GetRes.nullRes
      | some CacheBody.marker => GetRes.undefRes
      | some (CacheBody.payload s) => GetRes.found s)
  getMulti := fun _ =>
    Except.ok fun k =>
      match jsGet store k with
      | none => GetRes.nullRes
      | some CacheBody.marker => GetRes.undefRes
      | some (CacheBody.payload s) => GetRes.found s
  set := fun _ _ _ => Except.ok true
  setMulti := fun _ _ => Except.ok true
  exists' := fun k =>
    Except.ok (match jsGet store k with
      | none => some false
      | some CacheBody.marker => none
      | some (CacheBody.payload _) => some true)
  remove := fun _ => Except.ok true
  removeMulti := fun ks => Except.ok ((ks.filter fun k => (jsGet store k).isSome).length)

/-! ## Entries, attachments and the zone (`Zone.ts` data model) -/

/-- `Entry`: a registered access path; `buildKey` is the compiled key
builder, `keys` the (defensively copied) identity schema. -/
structure Entry : Type where
  name : String
  ttl : Nat
  neTTL : Nat
  keys : Schema
  buildKey : IdRecord → String

/-- The `Entry` constructor: compiles the key builder once. -/
def mkEntry (resource name : String) (keys : Schema) (ttl neTTL : Nat)
    (attachment : Option String) : Entry :=
  ⟨name, ttl, neTTL, keys, compileCacheKeyBuilder resource name keys attachment⟩

/-- `Attachment`: an `Entry` with its own serializer pair; its key builder
is compiled with the attachment namespace (`attachment := name`). -/
structure Attachment (T : Type) extends Entry where
  serialize : T → CacheBody
  unserialize : String → Except String T

/-- The `Attachment` constructor (passes its own name as the attachment
namespace segment). -/
def mkAttachment {T : Type} (resource name : String) (keys : Schema) (ttl neTTL : Nat)
    (ser : T → CacheBody) (unser : String → Except String T) : Attachment T :=
  ⟨mkEntry resource name keys ttl neTTL (some name), ser, unser⟩

/-- The `ResourceZone` state: its name, the two registries, and the
zone-level serializer pair.  `toIdent` models the source's structural use
of a resource object as its own identity record (the `<any> data` casts);
the bound driver is passed to each operation explicitly. -/
structure Zone (T : Type) : Type where
  name : String
  entries : List (String × Entry)
  attachments : List (String × Attachment T)
  serialize : T → CacheBody
  unserialize : String → Except String T
  toIdent : T → IdRecord

/-- `new ResourceZone(name, ...)`: empty registries. -/
def mkZone {T : Type} (name : String) (ser : T → CacheBody)
    (unser : String → Except String T) (toIdent : T → IdRecord) : Zone T :=
  ⟨name, [], [], ser, unser, toIdent⟩

/-! ## Error messages thrown by the zone -/

def cacheDownMsg : String := "Cache driver is down."

def entryMissingMsg (name zone : String) : String :=
  "Entry \"" ++ name ++ "\" doesn't exist in resource \"" ++ zone ++ "\"."

def entryExistsMsg (name zone : String) : String :=
  "Entry \"" ++ name ++ "\" already exists in resource \"" ++ zone ++ "\"."

def attachmentMissingMsg (name zone : String) : String :=
  "Attachment \"" ++ name ++ "\" doesn't exist in resource \"" ++ zone ++ "\"."

def lengthMismatchMsg : String := "Length of data and identities not matched."

/-- `_assertCacheUsable`: throws when the driver reports itself down. -/
def usableGate (d : Driver) : Except String Unit :=
  if d.usable then Except.ok () else Except.error cacheDownMsg

/-- The error of a computation, if it raised one. -/
def exceptErr {ε α : Type} : Except ε α → Option ε
  | Except.error e => some e
  | Except.ok _ => none

/-- The first rejection among a list of settled results (`Promise.all`). -/
def firstError {α : Type} : List (Except String α) → Option String
  | [] => none
  | Except.error e :: _ => some e
  | Except.ok _ :: rest => firstError rest

/-! ## Registration (`registerEntry`, `registerAttachment`)

These two methods have no `try`/`catch`: a precondition failure is thrown
to the caller, so they return `Except` rather than a contained result. -/

/-- `registerEntry(name, keys, ttl=0, neTTL=900)`. -/
def registerEntry {T : Type} (z : Zone T) (name : String) (keys : Schema)
    (ttl neTTL : Nat) : Except String (Zone T) :=
  if (jsGet z.entries name).isSome then Except.error (entryExistsMsg name z.name)
  else Except.ok
    { z with entries := jsSet z.entries name (mkEntry z.name name keys ttl neTTL none) }

/-- `registerAttachment(name, entry, serializer, unserializer, ttl, neTTL)`;
the duplicate-name message reuses the "Entry ... already exists" wording,
as in the source's `_assertAttachment`. -/
def registerAttachment {T : Type} (z : Zone T) (name entry : String)
    (ser : T → CacheBody) (unser : String → Except String T)
    (ttl neTTL : Nat) : Except String (Zone T) :=
  match jsGet z.entries entry with
  | none => Except.error (entryMissingMsg entry z.name)
  | some parent =>
    if (jsGet z.attachments name).isSome then Except.error (entryExistsMsg name z.name)
    else Except.ok
      { z with attachments :=
          jsSet z.attachments name (mkAttachment z.name name parent.keys ttl neTTL ser unser) }

/-! ## The contained operations

Each public method is a `try` body (`try...` below, returning the result or
the raised error, together with the driver-call trace) wrapped in a `catch`
that emits the error once and returns the method's safe default. -/

section ZoneOps

variable {T : Type}

/-- Translation of one `getMulti` item as `readMulti`'s loop does it (and
`read` for its single item): `null`/`undefined` pass through, a payload is
deserialized (which may throw). -/
def decodeGet (unser : String → Except String T) : GetRes → Except String (ReadResult T)
  | GetRes.nullRes => Except.ok ReadResult.unknown
  | GetRes.undefRes => Except.ok ReadResult.neverExisted
  | GetRes.found s => (unser s).map ReadResult.value

/-- The body of `read`. -/
def tryRead (z : Zone T) (d : Driver) (entry : String) (identity : IdRecord) :
    Except String (ReadResult T) × List DriverCall :=
  match usableGate d with
  | Except.error e => (Except.error e, [DriverCall.usable])
  | Except.ok _ =>
    match jsGet z.entries entry with
    | none => (Except.error (entryMissingMsg entry z.name), [DriverCall.usable])
    | some en =>
      let key := en.buildKey identity
      match d.get key with
      | Except.error e => (Except.error e, [DriverCall.usable, DriverCall.get key])
      | Except.ok g => (decodeGet z.unserialize g, [DriverCall.usable, DriverCall.get key])

/-- `read(entry, identity)`: result, emitted error events, driver trace. -/
def read (z : Zone T) (d : Driver) (entry : String) (identity : IdRecord) :
    ReadResult T × List String × List DriverCall :=
  match tryRead z d entry identity with
  | (Except.ok r, cs) => (r, [], cs)
  | (Except.error e, cs) => (ReadResult.unknown, [e], cs)

/-- `readMulti`'s translation loop over the derived keys. -/
def readMultiCollect (unser : String → Except String T) (f : String → GetRes) :
    List String → Except String (List (ReadResult T))
  | [] => Except.ok []
  | k :: rest =>
    match decodeGet unser (f k) with
    | Except.error e => Except.error e
    | Except.ok r =>
      match readMultiCollect unser f rest with
      | Except.error e => Except.error e
      | Except.ok rs => Except.ok (r :: rs)

/-- The body of `readMulti`. -/
def tryReadMulti (z : Zone T) (d : Driver) (entry : String)
    (identities : List IdRecord) :
    Except String (List (ReadResult T)) × List DriverCall :=
  match usableGate d with
  | Except.error e => (Except.error e, [DriverCall.usable])
  | Except.ok _ =>
    match jsGet z.entries entry with
    | none => (Except.error (entryMissingMsg entry z.name), [DriverCall.usable])
    | some en =>
      let keys := identities.map en.buildKey
      match d.getMulti keys with
      | Except.error e => (Except.error e, [DriverCall.usable, DriverCall.getMulti keys])
      | Except.ok f =>
        (readMultiCollect z.unserialize f keys,
          [DriverCall.usable, DriverCall.getMulti keys])

/-- `readMulti(entry, identities)`; on a failed batch the safe default is
one `null` per requested identity. -/
def readMulti (z : Zone T) (d : Driver) (entry : String) (identities : List IdRecord) :
    List (ReadResult T) × List String × List DriverCall :=
  match tryReadMulti z d entry identities with
  | (Except.ok rs, cs) => (rs, [], cs)
  | (Except.error e, cs) => (identities.map fun _ => ReadResult.unknown, [e], cs)

/-- The body of `write` (`identity || data`, `ttl === undefined ? entry.ttl : ttl`). -/
def tryWrite (z : Zone T) (d : Driver) (entry : String) (data : T)
    (identity : Option IdRecord) (ttl : Option Nat) :
    Except String Bool × List DriverCall :=
  match usableGate d with
  | Except.error e => (Except.error e, [DriverCall.usable])
  | Except.ok _ =>
    match jsGet z.entries entry with
    | none => (Except.error (entryMissingMsg entry z.name), [DriverCall.usable])
    | some en =>
      let key := en.buildKey (identity.getD (z.toIdent data))
      let body := z.serialize data
      let t := ttl.getD en.ttl
      match d.set key body t with
      | Except.error e => (Except.error e, [DriverCall.usable, DriverCall.set key body t])
      | Except.ok b => (Except.ok b, [DriverCall.usable, DriverCall.set key body t])

/-- `write(entry, data, identity?, ttl?)`. -/
def write (z : Zone T) (d : Driver) (entry : String) (data : T)
    (identity : Option IdRecord) (ttl : Option Nat) :
    Bool × List String × List DriverCall :=
  match tryWrite z d entry data identity ttl with
  | (Except.ok b, cs) => (b, [], cs)
  | (Except.error e, cs) => (false, [e], cs)

/-- The key/body pairs assigned into `writeMulti`'s `caches` record when
identities are supplied (`caches[buildKey(identities[i])] = serialize(data[i])`). -/
def writeMultiPairsWithIds (en : Entry) (ser : T → CacheBody)
    (data : List T) (ids : List IdRecord) : List (String × CacheBody) :=
  (ids.zip data).map fun p => (en.buildKey p.1, ser p.2)

/-- The key/body pairs assigned into `writeMulti`'s `caches` record when
identities default to the data items themselves. -/
def writeMultiPairsFromData (en : Entry) (ser : T → CacheBody)
    (toI : T → IdRecord) (data : List T) : List (String × CacheBody) :=
  data.map fun t => (en.buildKey (toI t), ser t)

/-- The body of `writeMulti`. -/
def tryWriteMulti (z : Zone T) (d : Driver) (entry : String) (data : List T)
    (identities : Option (List IdRecord)) :
    Except String Bool × List DriverCall :=
  match usableGate d with
  | Except.error e => (Except.error e, [DriverCall.usable])
  | Except.ok _ =>
    match jsGet z.entries entry with
    | none => (Except.error (entryMissingMsg entry z.name), [DriverCall.usable])
    | some en =>
      match identities with
      | some ids =>
        if ids.length = data.length then
          let caches := jsAssignAll [] (writeMultiPairsWithIds en z.serialize data ids)
          match d.setMulti caches en.ttl with
          | Except.error e =>
            (Except.error e, [DriverCall.usable, DriverCall.setMulti caches en.ttl])
          | Except.ok b =>
            (Except.ok b, [DriverCall.usable, DriverCall.setMulti caches en.ttl])
        else (Except.error lengthMismatchMsg, [DriverCall.usable])
      | none =>
        let caches := jsAssignAll [] (writeMultiPairsFromData en z.serialize z.toIdent data)
        match d.setMulti caches en.ttl with
        | Except.error e =>
          (Except.error e, [DriverCall.usable, DriverCall.setMulti caches en.ttl])
        | Except.ok b =>
          (Except.ok b, [DriverCall.usable, DriverCall.setMulti caches en.ttl])

/-- `writeMulti(entry, data, identities?)`. -/
def writeMulti (z : Zone T) (d : Driver) (entry : String) (data : List T)
    (identities : Option (List IdRecord)) :
    Bool × List String × List DriverCall :=
  match tryWriteMulti z d entry data identities with
  | (Except.ok b, cs) => (b, [], cs)
  | (Except.error e, cs) => (false, [e], cs)

/-- The settled results of `put`'s fan-out `driver.set` calls, one per
registered entry, in registry order. -/
def putSets (z : Zone T) (d : Driver) (data : T) (ttl : Option Nat) :
    List (Except String Bool) :=
  z.entries.map fun p =>
    d.set (p.2.buildKey (z.toIdent data)) (z.serialize data) (ttl.getD p.2.ttl)

/-- The driver calls issued by `put`'s fan-out. -/
def putCalls (z : Zone T) (data : T) (ttl : Option Nat) : List DriverCall :=
  z.entries.map fun p =>
    DriverCall.set (p.2.buildKey (z.toIdent data)) (z.serialize data) (ttl.getD p.2.ttl)

/-- The body of `put`: fan out one `set` per registered entry, join on all
of them (`Promise.all`: the first rejection rejects the whole join; the
resolved booleans are discarded and the body answers `true`). -/
def tryPut (z : Zone T) (d : Driver) (data : T) (ttl : Option Nat) :
    Except String Bool × List DriverCall :=
  match usableGate d with
  | Except.error e => (Except.error e, [DriverCall.usable])
  | Except.ok _ =>
    match firstError (putSets z d data ttl) with
    | some e => (Except.error e, DriverCall.usable :: putCalls z data ttl)
    | none => (Except.ok true, DriverCall.usable :: putCalls z data ttl)

/-- `put(data, ttl?)`. -/
def put (z : Zone T) (d : Driver) (data : T) (ttl : Option Nat) :
    Bool × List String × List DriverCall :=
  match tryPut z d data ttl with
  | (Except.ok b, cs) => (b, [], cs)
  | (Except.error e, cs) => (false, [e], cs)

/-- The settled results of `putMulti`'s fan-out: for each data item, one
`set` per registered entry, with the entry's own TTL. -/
def putMultiSets (z : Zone T) (d : Driver) (data : List T) : List (Except String Bool) :=
  data.flatMap fun item =>
    z.entries.map fun p =>
      d.set (p.2.buildKey (z.toIdent item)) (z.serialize item) p.2.ttl

/-- The driver calls issued by `putMulti`'s fan-out. -/
def putMultiCalls (z : Zone T) (data : List T) : List DriverCall :=
  data.flatMap fun item =>
    z.entries.map fun p =>
      DriverCall.set (p.2.buildKey (z.toIdent item)) (z.serialize item) p.2.ttl

/-- The body of `putMulti`. -/
def tryPutMulti (z : Zone T) (d : Driver) (data : List T) :
    Except String Bool × List DriverCall :=
  match usableGate d with
  | Except.error e => (Except.error e, [DriverCall.usable])
  | Except.ok _ =>
    match firstError (putMultiSets z d data) with
    | some e => (Except.error e, DriverCall.usable :: putMultiCalls z data)
    | none => (Except.ok true, DriverCall.usable :: putMultiCalls z data)

/-- `putMulti(data)`. -/
def putMulti (z : Zone T) (d : Driver) (data : List T) :
    Bool × List String × List DriverCall :=
  match tryPutMulti z d data with
  | (Except.ok b, cs) => (b, [], cs)
  | (Except.error e, cs) => (false, [e], cs)

/-- The body of `markNeverExist`: stores the `undefined` marker under the
entry's `neTTL`. -/
def tryMarkNeverExist (z : Zone T) (d : Driver) (entry : String) (identity : IdRecord) :
    Except String Bool × List DriverCall :=
  match usableGate d with
  | Except.error e => (Except.error e, [DriverCall.usable])
  | Except.ok _ =>
    match jsGet z.entries entry with
    | none => (Except.error (entryMissingMsg entry z.name), [DriverCall.usable])
    | some en =>
      let key := en.buildKey identity
      match d.set key CacheBody.marker en.neTTL with
      | Except.error e =>
        (Except.error e, [DriverCall.usable, DriverCall.set key CacheBody.marker en.neTTL])
      | Except.ok b =>
        (Except.ok b, [DriverCall.usable, DriverCall.set key CacheBody.marker en.neTTL])

/-- `markNeverExist(entry, identity)`. -/
def markNeverExist (z : Zone T) (d : Driver) (entry : String) (identity : IdRecord) :
    Bool × List String × List DriverCall :=
  match tryMarkNeverExist z d entry identity with
  | (Except.ok b, cs) => (b, [], cs)
  | (Except.error e, cs) => (false, [e], cs)

/-- The body of `markMultiNeverExist`: a marker per derived key, one
`setMulti` under the entry's `neTTL`. -/
def tryMarkMultiNeverExist (z : Zone T) (d : Driver) (entry : String)
    (identities : List IdRecord) : Except String Bool × List DriverCall :=
  match usableGate d with
  | Except.error e => (Except.error e, [DriverCall.usable])
  | Except.ok _ =>
    match jsGet z.entries entry with
    | none => (Except.error (entryMissingMsg entry z.name), [DriverCall.usable])
    | some en =>
      let caches :=
        jsAssignAll [] (identities.map fun i => (en.buildKey i, CacheBody.marker))
      match d.setMulti caches en.neTTL with
      | Except.error e =>
        (Except.error e, [DriverCall.usable, DriverCall.setMulti caches en.neTTL])
      | Except.ok b =>
        (Except.ok b, [DriverCall.usable, DriverCall.setMulti caches en.neTTL])

/-- `markMultiNeverExist(entry, identities)`. -/
def markMultiNeverExist (z : Zone T) (d : Driver) (entry : String)
    (identities : List IdRecord) : Bool × List String × List DriverCall :=
  match tryMarkMultiNeverExist z d entry identities with
  | (Except.ok b, cs) => (b, [], cs)
  | (Except.error e, cs) => (false, [e], cs)

/-- The body of `exists`. -/
def tryExists (z : Zone T) (d : Driver) (entry : String) (identity : IdRecord) :
    Except String (Option Bool) × List DriverCall :=
  match usableGate d with
  | Except.error e => (Except.error e, [DriverCall.usable])
  | Except.ok _ =>
    match jsGet z.entries entry with
    | none => (Except.error (entryMissingMsg entry z.name), [DriverCall.usable])
    | some en =>
      let key := en.buildKey identity
      match d.exists' key with
      | Except.error e => (Except.error e, [DriverCall.usable, DriverCall.exists' key])
      | Except.ok b => (Except.ok b, [DriverCall.usable, DriverCall.exists' key])

/-- `exists(entry, identity)` (`boolean | undefined`; the catch returns
`false`). -/
def exists' (z : Zone T) (d : Driver) (entry : String) (identity : IdRecord) :
    Option Bool × List String × List DriverCall :=
  match tryExists z d entry identity with
  | (Except.ok b, cs) => (b, [], cs)
  | (Except.error e, cs) => (some false, [e], cs)

/-- The body of `remove`. -/
def tryRemove (z : Zone T) (d : Driver) (entry : String) (identity : IdRecord) :
    Except String Bool × List DriverCall :=
  match usableGate d with
  | Except.error e => (Except.error e, [DriverCall.usable])
  | Except.ok _ =>
    match jsGet z.entries entry with
    | none => (Except.error (entryMissingMsg entry z.name), [DriverCall.usable])
    | some en =>
      let key := en.buildKey identity
      match d.remove key with
      | Except.error e => (Except.error e, [DriverCall.usable, DriverCall.remove key])
      | Except.ok b => (Except.ok b, [DriverCall.usable, DriverCall.remove key])

/-- `remove(entry, identity)`. -/
def remove (z : Zone T) (d : Driver) (entry : String) (identity : IdRecord) :
    Bool × List String × List DriverCall :=
  match tryRemove z d entry identity with
  | (Except.ok b, cs) => (b, [], cs)
  | (Except.error e, cs) => (false, [e], cs)

/-- The body of `removeMulti`. -/
def tryRemoveMulti (z : Zone T) (d : Driver) (entry : String)
    (identities : List IdRecord) : Except String Nat × List DriverCall :=
  match usableGate d with
  | Except.error e => (Except.error e, [DriverCall.usable])
  | Except.ok _ =>
    match jsGet z.entries entry with
    | none => (Except.error (entryMissingMsg entry z.name), [DriverCall.usable])
    | some en =>
      let keys := identities.map en.buildKey
      match d.removeMulti keys with
      | Except.error e => (Except.error e, [DriverCall.usable, DriverCall.removeMulti keys])
      | Except.ok n => (Except.ok n, [DriverCall.usable, DriverCall.removeMulti keys])

/-- `removeMulti(entry, identities)` (the catch returns `0`). -/
def removeMulti (z : Zone T) (d : Driver) (entry : String)
    (identities : List IdRecord) : Nat × List String × List DriverCall :=
  match tryRemoveMulti z d entry identities with
  | (Except.ok n, cs) => (n, [], cs)
  | (Except.error e, cs) => (0, [e], cs)

/-- The body of `readAttachment` (deserializes with the attachment's own
unserializer). -/
def tryReadAttachment (z : Zone T) (d : Driver) (name : String) (identity : IdRecord) :
    Except String (ReadResult T) × List DriverCall :=
  match usableGate d with
  | Except.error e => (Except.error e, [DriverCall.usable])
  | Except.ok _ =>
    match jsGet z.attachments name with
    | none => (Except.error (attachmentMissingMsg name z.name), [DriverCall.usable])
    | some attach =>
      let key := attach.buildKey identity
      match d.get key with
      | Except.error e => (Except.error e, [DriverCall.usable, DriverCall.get key])
      | Except.ok g => (decodeGet attach.unserialize g, [DriverCall.usable, DriverCall.get key])

/-- `readAttachment(name, identity)`. -/
def readAttachment (z : Zone T) (d : Driver) (name : String) (identity : IdRecord) :
    ReadResult T × List String × List DriverCall :=
  match tryReadAttachment z d name identity with
  | (Except.ok r, cs) => (r, [], cs)
  | (Except.error e, cs) => (ReadResult.unknown, [e], cs)

/-- The body of `writeAttachment` (attachment serializer and TTL). -/
def tryWriteAttachment (z : Zone T) (d : Driver) (name : String)
    (identity : IdRecord) (data : T) : Except String Bool × List DriverCall :=
  match usableGate d with
  | Except.error e => (Except.error e, [DriverCall.usable])
  | Except.ok _ =>
    match jsGet z.attachments name with
    | none => (Except.error (attachmentMissingMsg name z.name), [DriverCall.usable])
    | some attach =>
      let key := attach.buildKey identity
      let body := attach.serialize data
      match d.set key body attach.ttl with
      | Except.error e =>
        (Except.error e, [DriverCall.usable, DriverCall.set key body attach.ttl])
      | Except.ok b =>
        (Except.ok b, [DriverCall.usable, DriverCall.set key body attach.ttl])

/-- `writeAttachment(name, identity, data)`. -/
def writeAttachment (z : Zone T) (d : Driver) (name : String)
    (identity : IdRecord) (data : T) : Bool × List String × List DriverCall :=
  match tryWriteAttachment z d name identity data with
  | (Except.ok b, cs) => (b, [], cs)
  | (Except.error e, cs) => (false, [e], cs)

/-- The body of `removeAttachment`. -/
def tryRemoveAttachment (z : Zone T) (d : Driver) (name : String)
    (identity : IdRecord) : Except String Bool × List DriverCall :=
  match usableGate d with
  | Except.error e => (Except.error e, [DriverCall.usable])
  | Except.ok _ =>
    match jsGet z.attachments name with
    | none => (Except.error (attachmentMissingMsg name z.name), [DriverCall.usable])
    | some attach =>
      let key := attach.buildKey identity
      match d.remove key with
      | Except.error e => (Except.error e, [DriverCall.usable, DriverCall.remove key])
      | Except.ok b => (Except.ok b, [DriverCall.usable, DriverCall.remove key])

/-- `removeAttachment(name, identity)`. -/
def removeAttachment (z : Zone T) (d : Driver) (name : String) (identity : IdRecord) :
    Bool × List String × List DriverCall :=
  match tryRemoveAttachment z d name identity with
  | (Except.ok b, cs) => (b, [], cs)
  | (Except.error e, cs) => (false, [e], cs)

/-- The body of `removeAllAttachments`: one batched `removeMulti` over
every attachment's derived key; the count is discarded. -/
def tryRemoveAllAttachments (z : Zone T) (d : Driver) (data : T) :
    Except String Bool × List DriverCall :=
  match usableGate d with
  | Except.error e => (Except.error e, [DriverCall.usable])
  | Except.ok _ =>
    let keys := z.attachments.map fun p => p.2.buildKey (z.toIdent data)
    match d.removeMulti keys with
    | Except.error e => (Except.error e, [DriverCall.usable, DriverCall.removeMulti keys])
    | Except.ok _ => (Except.ok true, [DriverCall.usable, DriverCall.removeMulti keys])

/-- `removeAllAttachments(data)`. -/
def removeAllAttachments (z : Zone T) (d : Driver) (data : T) :
    Bool × List String × List DriverCall :=
  match tryRemoveAllAttachments z d data with
  | (Except.ok b, cs) => (b, [], cs)
  | (Except.error e, cs) => (false, [e], cs)

/-- The keys removed by `flush`: every entry's key for `data`, plus every
attachment's key when requested. -/
def flushKeys (z : Zone T) (data : T) (includeAttachment : Bool) : List String :=
  (z.entries.map fun p => p.2.buildKey (z.toIdent data)) ++
    (if includeAttachment then z.attachments.map fun p => p.2.buildKey (z.toIdent data)
     else [])

/-- The body of `flush`. -/
def tryFlush (z : Zone T) (d : Driver) (data : T) (includeAttachment : Bool) :
    Except String Bool × List DriverCall :=
  match usableGate d with
  | Except.error e => (Except.error e, [DriverCall.usable])
  | Except.ok _ =>
    let keys := flushKeys z data includeAttachment
    match d.removeMulti keys with
    | Except.error e => (Except.error e, [DriverCall.usable, DriverCall.removeMulti keys])
    | Except.ok _ => (Except.ok true, [DriverCall.usable, DriverCall.removeMulti keys])

/-- `flush(data, includeAttachment=false)`. -/
def flush (z : Zone T) (d : Driver) (data : T) (includeAttachment : Bool) :
    Bool × List String × List DriverCall :=
  match tryFlush z d data includeAttachment with
  | (Except.ok b, cs) => (b, [], cs)
  | (Except.error e, cs) => (false, [e], cs)

end ZoneOps

/-! ## The public surface as one operation type -/

/-- One invocation of a public `ResourceZone` method with its arguments. -/
inductive ZoneOp (T : Type) : Type
  | registerEntry (name : String) (keys : Schema) (ttl neTTL : Nat)
  | registerAttachment (name entry : String) (ser : T → CacheBody)
      (unser : String → Except String T) (ttl neTTL : Nat)
  | read (entry : String) (identity : IdRecord)
  | readMulti (entry : String) (identities : List IdRecord)
  | write (entry : String) (data : T) (identity : Option IdRecord) (ttl : Option Nat)
  | writeMulti (entry : String) (data : List T) (identities : Option (List IdRecord))
  | put (data : T) (ttl : Option Nat)
  | putMulti (data : List T)
  | markNeverExist (entry : String) (identity : IdRecord)
  | markMultiNeverExist (entry : String) (identities : List IdRecord)
  | exists' (entry : String) (identity : IdRecord)
  | remove (entry : String) (identity : IdRecord)
  | removeMulti (entry : String) (identities : List IdRecord)
  | readAttachment (name : String) (identity : IdRecord)
  | writeAttachment (name : String) (identity : IdRecord) (data : T)
  | removeAttachment (name : String) (identity : IdRecord)
  | removeAllAttachments (data : T)
  | flush (data : T) (includeAttachment : Bool)

/-- Whether the operation is one of the two registration methods (the
setup phase; the only writers of the registries, and the only methods
without a `try`/`catch`). -/
def ZoneOp.isRegister {T : Type} : ZoneOp T → Bool
  | ZoneOp.registerEntry _ _ _ _ => true
  | ZoneOp.registerAttachment _ _ _ _ _ _ => true
  | _ => false

/-- The value a public operation returns. -/
inductive OpResult (T : Type) : Type
  | readRes (r : ReadResult T)
  | readMultiRes (rs : List (ReadResult T))
  | boolRes (b : Bool)
  | natRes (n : Nat)
  | existsRes (r : Option Bool)
  | zoneRes
  | raised (e : String)

/-- Runs one public operation: result, zone state afterwards, emitted
error events, driver-call trace.  A registration failure surfaces as
`OpResult.raised` (those methods throw to the caller). -/
def runZoneOp {T : Type} (op : ZoneOp T) (z : Zone T) (d : Driver) :
    OpResult T × Zone T × List String × List DriverCall :=
  match op with
  | ZoneOp.registerEntry name keys ttl neTTL =>
    (match registerEntry z name keys ttl neTTL with
     | Except.error e => (OpResult.raised e, z, [], [])
     | Except.ok z' => (OpResult.zoneRes, z', [], []))
  | ZoneOp.registerAttachment name entry ser unser ttl neTTL =>
    (match registerAttachment z name entry ser unser ttl neTTL with
     | Except.error e => (OpResult.raised e, z, [], [])
     | Except.ok z' => (OpResult.zoneRes, z', [], []))
  | ZoneOp.read entry identity =>
    (match read z d entry identity with
     | (r, evs, cs) => (OpResult.readRes r, z, evs, cs))
  | ZoneOp.readMulti entry identities =>
    (match readMulti z d entry identities with
     | (rs, evs, cs) => (OpResult.readMultiRes rs, z, evs, cs))
  | ZoneOp.write entry data identity ttl =>
    (match write z d entry data identity ttl with
     | (b, evs, cs) => (OpResult.boolRes b, z, evs, cs))
  | ZoneOp.writeMulti entry data identities =>
    (match writeMulti z d entry data identities with
     | (b, evs, cs) => (OpResult.boolRes b, z, evs, cs))
  | ZoneOp.put data ttl =>
    (match put z d data ttl with
     | (b, evs, cs) => (OpResult.boolRes b, z, evs, cs))
  | ZoneOp.putMulti data =>
    (match putMulti z d data with
     | (b, evs, cs) => (OpResult.boolRes b, z, evs, cs))
  | ZoneOp.markNeverExist entry identity =>
    (match markNeverExist z d entry identity with
     | (b, evs, cs) => (OpResult.boolRes b, z, evs, cs))
  | ZoneOp.markMultiNeverExist entry identities =>
    (match markMultiNeverExist z d entry identities with
     | (b, evs, cs) => (OpResult.boolRes b, z, evs, cs))
  | ZoneOp.exists' entry identity =>
    (match exists' z d entry identity with
     | (r, evs, cs) => (OpResult.existsRes r, z, evs, cs))
  | ZoneOp.remove entry identity =>
    (match remove z d entry identity with
     | (b, evs, cs) => (OpResult.boolRes b, z, evs, cs))
  | ZoneOp.removeMulti entry identities =>
    (match removeMulti z d entry identities with
     | (n, evs, cs) => (OpResult.natRes n, z, evs, cs))
  | ZoneOp.readAttachment name identity =>
    (match readAttachment z d name identity with
     | (r, evs, cs) => (OpResult.readRes r, z, evs, cs))
  | ZoneOp.writeAttachment name identity data =>
    (match writeAttachment z d name identity data with
     | (b, evs, cs) => (OpResult.boolRes b, z, evs, cs))
  | ZoneOp.removeAttachment name identity =>
    (match removeAttachment z d name identity with
     | (b, evs, cs) => (OpResult.boolRes b, z, evs, cs))
  | ZoneOp.removeAllAttachments data =>
    (match removeAllAttachments z d data with
     | (b, evs, cs) => (OpResult.boolRes b, z, evs, cs))
  | ZoneOp.flush data includeAttachment =>
    (match flush z d data includeAttachment with
     | (b, evs, cs) => (OpResult.boolRes b, z, evs, cs))

/-- The documented safe default of each contained operation: `null` for
reads, `false` for boolean operations (including `exists`), `0` for
`removeMulti`, one `null` per input identity for `readMulti`. -/
def safeDefault {T : Type} : ZoneOp T → OpResult T
  | ZoneOp.read _ _ => OpResult.readRes ReadResult.unknown
  | ZoneOp.readAttachment _ _ => OpResult.readRes ReadResult.unknown
  | ZoneOp.readMulti _ identities =>
    OpResult.readMultiRes (identities.map fun _ => ReadResult.unknown)
  | ZoneOp.removeMulti _ _ => OpResult.natRes 0
  | ZoneOp.exists' _ _ => OpResult.existsRes (some false)
  | ZoneOp.registerEntry _ _ _ _ => OpResult.zoneRes
  | ZoneOp.registerAttachment _ _ _ _ _ _ => OpResult.zoneRes
  | _ => OpResult.boolRes false

/-- The error raised inside an operation's body, if any: a precondition
violation (unknown/duplicate entry or attachment, unusable driver, batch
length mismatch) or a driver/deserializer failure. -/
def zoneOpRaises {T : Type} (op : ZoneOp T) (z : Zone T) (d : Driver) : Option String :=
  match op with
  | ZoneOp.registerEntry name keys ttl neTTL =>
    exceptErr (registerEntry z name keys ttl neTTL)
  | ZoneOp.registerAttachment name entry ser unser ttl neTTL =>
    exceptErr (registerAttachment z name entry ser unser ttl neTTL)
  | ZoneOp.read entry identity => exceptErr (tryRead z d entry identity).1
  | ZoneOp.readMulti entry identities => exceptErr (tryReadMulti z d entry identities).1
  | ZoneOp.write entry data identity ttl =>
    exceptErr (tryWrite z d entry data identity ttl).1
  | ZoneOp.writeMulti entry data identities =>
    exceptErr (tryWriteMulti z d entry data identities).1
  | ZoneOp.put data ttl => exceptErr (tryPut z d data ttl).1
  | ZoneOp.putMulti data => exceptErr (tryPutMulti z d data).1
  | ZoneOp.markNeverExist entry identity =>
    exceptErr (tryMarkNeverExist z d entry identity).1
  | ZoneOp.markMultiNeverExist entry identities =>
    exceptErr (tryMarkMultiNeverExist z d entry identities).1
  | ZoneOp.exists' entry identity => exceptErr (tryExists z d entry identity).1
  | ZoneOp.remove entry identity => exceptErr (tryRemove z d entry identity).1
  | ZoneOp.removeMulti entry identities =>
    exceptErr (tryRemoveMulti z d entry identities).1
  | ZoneOp.readAttachment name identity =>
    exceptErr (tryReadAttachment z d name identity).1
  | ZoneOp.writeAttachment name identity data =>
    exceptErr (tryWriteAttachment z d name identity data).1
  | ZoneOp.removeAttachment name identity =>
    exceptErr (tryRemoveAttachment z d name identity).1
  | ZoneOp.removeAllAttachments data => exceptErr (tryRemoveAllAttachments z d data).1
  | ZoneOp.flush data includeAttachment =>
    exceptErr (tryFlush z d data includeAttachment).1

/-! ## Delimiter-token decomposition of rendered keys

Splitting a rendered key at every `':'` recovers the segment structure as
long as the variable segments themselves contain no `':'`; this is the
device behind the collision-freedom analysis of the key builder. -/

/-- Split a character list at every `':'` (the list of delimited tokens;
always non-empty). -/
def splitCol : List Char → List (List Char)
  | [] => [[]]
  | c :: rest =>
    if c = ':' then [] :: splitCol rest
    else
      match splitCol rest with
      | [] => [[c]]
      | t :: ts => (c :: t) :: ts

/-- The token lists contributed by a segment list (each segment may itself
contain delimiters and hence several tokens). -/
def segTokens (segs : List String) : List (List Char) :=
  segs.flatMap fun s => splitCol s.data

/-- The segment list built by `compileCacheKeyBuilder` before joining. -/
def keySegs (resource entryName : String) (identities : Schema)
    (attachment : Option String) (ids : IdRecord) : List String :=
  let segs := [resource, entryName]
  let segs :=
    if attachTruthy attachment then
      segs.take 1 ++ ["attach", attachment.getD ""] ++ segs.drop 1
    else segs
  segs ++ identities.flatMap fun kv => [kv.1, renderIdentity kv.2 (ids kv.1)]

/-- The identity-field segments of a key (a name and a rendered value per
declared field). -/
def fieldSegs (identities : Schema) (ids : IdRecord) : List String :=
  identities.flatMap fun kv => [kv.1, renderIdentity kv.2 (ids kv.1)]

/-! ## Concrete instances used by the refutations and witnesses -/

/-- A demonstration zone over string payloads: resource "users", one entry
"primary" with schema `{id: number}`, identity serializer pair. -/
def demoSchema : Schema := [("id", IdentityValueType.number)]

/-- The entry registered under "primary" in the demonstration zone. -/
def demoEntry : Entry := mkEntry "users" "primary" demoSchema 0 900 none

/-- The demonstration zone (registration already performed). -/
def demoZone : Zone String :=
  ⟨"users", [("primary", demoEntry)], [], fun s => CacheBody.payload s,
    fun s => Except.ok s, fun s _ => Value.vStr s⟩

/-- The identity record `{id: 123}`. -/
def demoId : IdRecord := fun _ => Value.vInt 123

/-- A driver that is up and answers every request without rejecting. -/
def okDriver : Driver where
  usable := true
  get := fun _ => Except.ok GetRes.nullRes
  getMulti := fun _ => Except.ok fun _ => GetRes.nullRes
  set := fun _ _ _ => Except.ok true
  setMulti := fun _ _ => Except.ok true
  exists' := fun _ => Except.ok (some false)
  remove := fun _ => Except.ok true
  removeMulti := fun _ => Except.ok 0

/-- A driver that reports itself down. -/
def downDriver : Driver := { okDriver with usable := false }

/-- A driver whose `set` resolves with `false` (a failed write per the
driver contract) without rejecting. -/
def falseSetDriver : Driver := { okDriver with set := fun _ _ _ => Except.ok false }

/-- A driver whose reads find the payload "v". -/
def foundDriver : Driver :=
  { okDriver with
    get := fun _ => Except.ok (GetRes.found "v"),
    getMulti := fun _ => Except.ok fun _ => GetRes.found "v" }

/-- Two-text-field schema on which rendered keys can collide. -/
def collideSchema : Schema :=
  [("a", IdentityValueType.string), ("b", IdentityValueType.string)]

/-- `{a: "1:b:2", b: "3"}`. -/
def collideR1 : IdRecord := fun n => if n = "a" then Value.vStr "1:b:2" else Value.vStr "3"

/-- `{a: "1", b: "2:b:3"}`. -/
def collideR2 : IdRecord := fun n => if n = "a" then Value.vStr "1" else Value.vStr "2:b:3"

/-- An arbitrary identity record (its values are never rendered where it
is used). -/
def anyId : IdRecord := fun _ => Value.vStr "x"

/-! # Lemmas -/

/-! ## Decimal rendering -/

theorem decVal_decChar_fin : ∀ n : Fin 10, decVal (decChar n.val) = n.val := by decide

theorem decChar_range_fin :
    ∀ n : Fin 10, 48 ≤ (decChar n.val).toNat ∧ (decChar n.val).toNat ≤ 57 := by decide

theorem decVal_decChar {n : Nat} (h : n < 10) : decVal (decChar n) = n :=
  decVal_decChar_fin ⟨n, h⟩

theorem decChar_range {n : Nat} (h : n < 10) :
    48 ≤ (decChar n).toNat ∧ (decChar n).toNat ≤ 57 :=
  decChar_range_fin ⟨n, h⟩

theorem natDigitsAux_digits :
    ∀ fuel n : Nat, ∀ c ∈ natDigitsAux fuel n, 48 ≤ c.toNat ∧ c.toNat ≤ 57 := by
  intro fuel
  induction fuel with
  | zero =>
    intro n c hc
    simp only [natDigitsAux, List.mem_singleton] at hc
    subst hc
    exact decChar_range (Nat.mod_lt _ (by omega))
  | succ fuel ih =>
    intro n c hc
    simp only [natDigitsAux] at hc
    by_cases h : n < 10
    · rw [if_pos h] at hc
      simp only [List.mem_singleton] at hc
      subst hc
      exact decChar_range h
    · rw [if_neg h] at hc
      rcases List.mem_append.mp hc with h1 | h2
      · exact ih _ _ h1
      · simp only [List.mem_singleton] at h2
        subst h2
        exact decChar_range (Nat.mod_lt _ (by omega))

theorem parseDec_natDigitsAux :
    ∀ fuel n : Nat, n ≤ fuel → parseDec (natDigitsAux fuel n) = n := by
  intro fuel
  induction fuel with
  | zero =>
    intro n hn
    have : n = 0 := by omega
    subst this
    simp [natDigitsAux, parseDec, decVal_decChar]
  | succ fuel ih =>
    intro n hn
    by_cases h : n < 10
    · simp [natDigitsAux, if_pos h, parseDec, decVal_decChar h]
    · have hdiv : n / 10 ≤ fuel := by
        have := Nat.div_lt_self (by omega : 0 < n) (by omega : 1 < 10)
        omega
      simp only [natDigitsAux, if_neg h, parseDec, List.foldl_append]
      have ihd := ih (n / 10) hdiv
      simp only [parseDec] at ihd
      rw [ihd, List.foldl_cons, List.foldl_nil, decVal_decChar (Nat.mod_lt _ (by omega))]
      omega

theorem parseDec_natDigits (n : Nat) : parseDec (natDigits n) = n :=
  parseDec_natDigitsAux n n (Nat.le_refl n)

theorem natDigits_inj {m n : Nat} (h : natDigits m = natDigits n) : m = n := by
  have := congrArg parseDec h
  rwa [parseDec_natDigits, parseDec_natDigits] at this

theorem natDigits_digits {n : Nat} : ∀ c ∈ natDigits n, 48 ≤ c.toNat ∧ c.toNat ≤ 57 :=
  natDigitsAux_digits n n

theorem intReprChars_inj {a b : Int} (h : intReprChars a = intReprChars b) : a = b := by
  cases a with
  | ofNat m =>
    cases b with
    | ofNat n =>
      simp only [intReprChars] at h
      exact congrArg Int.ofNat (natDigits_inj h)
    | negSucc n =>
      exfalso
      simp only [intReprChars] at h
      have : '-' ∈ natDigits m := by rw [h]; exact List.mem_cons_self _ _
      have h2 := natDigits_digits _ this
      revert h2
      decide
  | negSucc m =>
    cases b with
    | ofNat n =>
      exfalso
      simp only [intReprChars] at h
      have : '-' ∈ natDigits n := by rw [← h]; exact List.mem_cons_self _ _
      have h2 := natDigits_digits _ this
      revert h2
      decide
    | negSucc n =>
      simp only [intReprChars, List.cons.injEq, true_and] at h
      have := natDigits_inj h
      exact congrArg Int.negSucc (by omega)

theorem intRepr_inj {a b : Int} (h : intRepr a = intRepr b) : a = b :=
  intReprChars_inj (congrArg String.data h)

theorem intReprChars_noColon {a : Int} : ∀ c ∈ intReprChars a, c ≠ ':' := by
  cases a with
  | ofNat m =>
    intro c hc
    simp only [intReprChars] at hc
    intro hcol
    subst hcol
    have h2 := natDigits_digits _ hc
    revert h2
    decide
  | negSucc m =>
    intro c hc
    simp only [intReprChars, List.mem_cons] at hc
    rcases hc with h | h
    · subst h; decide
    · intro hcol
      subst hcol
      have h2 := natDigits_digits _ h
      revert h2
      decide

/-! ## Base64 -/

theorem b64Val_b64Char_fin : ∀ n : Fin 64, b64Val (b64Char n.val) = n.val := by decide

theorem b64Char_ne_fin : ∀ n : Fin 64, b64Char n.val ≠ '=' ∧ b64Char n.val ≠ ':' := by
  decide

theorem b64Val_b64Char {n : Nat} (h : n < 64) : b64Val (b64Char n) = n :=
  b64Val_b64Char_fin ⟨n, h⟩

theorem b64Char_ne_pad {n : Nat} (h : n < 64) : b64Char n ≠ '=' :=
  (b64Char_ne_fin ⟨n, h⟩).1

theorem b64Char_ne_colon {n : Nat} (h : n < 64) : b64Char n ≠ ':' :=
  (b64Char_ne_fin ⟨n, h⟩).2

theorem base64Decode_encode :
    ∀ bs : List Nat, (∀ b ∈ bs, b < 256) → base64Decode (base64Encode bs) = bs
  | [], _ => rfl
  | [a], h => by
    have ha : a < 256 := h a (by simp)
    have h1 : b64Val (b64Char (a / 4)) = a / 4 := b64Val_b64Char (by omega)
    have h2 : b64Val (b64Char (a % 4 * 16)) = a % 4 * 16 := b64Val_b64Char (by omega)
    simp only [base64Encode, base64Decode, if_pos rfl, if_true, h1, h2]
    have e1 : a / 4 * 4 + a % 4 * 16 / 16 = a := by omega
    rw [e1]
  | [a, b], h => by
    have ha : a < 256 := h a (by simp)
    have hb : b < 256 := h b (by simp)
    have h1 : b64Val (b64Char (a / 4)) = a / 4 := b64Val_b64Char (by omega)
    have h2 : b64Val (b64Char (a % 4 * 16 + b / 16)) = a % 4 * 16 + b / 16 :=
      b64Val_b64Char (by omega)
    have h3 : b64Val (b64Char (b % 16 * 4)) = b % 16 * 4 := b64Val_b64Char (by omega)
    have hne : b64Char (b % 16 * 4) ≠ '=' := b64Char_ne_pad (by omega)
    simp only [base64Encode, base64Decode, if_neg hne, if_pos rfl, if_true, h1, h2, h3]
    have e1 : a / 4 * 4 + (a % 4 * 16 + b / 16) / 16 = a := by omega
    have e2 : (a % 4 * 16 + b / 16) % 16 * 16 + b % 16 * 4 / 4 = b := by omega
    rw [e1, e2]
  | a :: b :: c :: rest, h => by
    have ha : a < 256 := h a (by simp)
    have hb : b < 256 := h b (by simp)
    have hc : c < 256 := h c (by simp)
    have h1 : b64Val (b64Char (a / 4)) = a / 4 := b64Val_b64Char (by omega)
    have h2 : b64Val (b64Char (a % 4 * 16 + b / 16)) = a % 4 * 16 + b / 16 :=
      b64Val_b64Char (by omega)
    have h3 : b64Val (b64Char (b % 16 * 4 + c / 64)) = b % 16 * 4 + c / 64 :=
      b64Val_b64Char (by omega)
    have h4 : b64Val (b64Char (c % 64)) = c % 64 := b64Val_b64Char (by omega)
    have hne3 : b64Char (b % 16 * 4 + c / 64) ≠ '=' := b64Char_ne_pad (by omega)
    have hne4 : b64Char (c % 64) ≠ '=' := b64Char_ne_pad (by omega)
    have ih := base64Decode_encode rest (fun x hx => h x (by simp [hx]))
    simp only [base64Encode, base64Decode, if_neg hne3, if_neg hne4, h1, h2, h3, h4]
    rw [ih]
    have e1 : a / 4 * 4 + (a % 4 * 16 + b / 16) / 16 = a := by omega
    have e2 : (a % 4 * 16 + b / 16) % 16 * 16 + (b % 16 * 4 + c / 64) / 4 = b := by omega
    have e3 : (b % 16 * 4 + c / 64) % 4 * 64 + c % 64 = c := by omega
    rw [e1, e2, e3]

theorem base64Encode_inj {bs1 bs2 : List Nat}
    (h1 : ∀ b ∈ bs1, b < 256) (h2 : ∀ b ∈ bs2, b < 256)
    (h : base64Encode bs1 = base64Encode bs2) : bs1 = bs2 := by
  have := congrArg base64Decode h
  rwa [base64Decode_encode bs1 h1, base64Decode_encode bs2 h2] at this

theorem base64Encode_noColon :
    ∀ bs : List Nat, (∀ b ∈ bs, b < 256) → ∀ ch ∈ base64Encode bs, ch ≠ ':'
  | [], _ => by simp [base64Encode]
  | [a], h => by
    have ha : a < 256 := h a (by simp)
    intro ch hch
    simp only [base64Encode, List.mem_cons, List.not_mem_nil, or_false] at hch
    rcases hch with rfl | rfl | rfl | rfl
    · exact b64Char_ne_colon (by omega)
    · exact b64Char_ne_colon (by omega)
    · decide
    · decide
  | [a, b], h => by
    have ha : a < 256 := h a (by simp)
    have hb : b < 256 := h b (by simp)
    intro ch hch
    simp only [base64Encode, List.mem_cons, List.not_mem_nil, or_false] at hch
    rcases hch with rfl | rfl | rfl | rfl
    · exact b64Char_ne_colon (by omega)
    · exact b64Char_ne_colon (by omega)
    · exact b64Char_ne_colon (by omega)
    · decide
  | a :: b :: c :: rest, h => by
    have ha : a < 256 := h a (by simp)
    have hb : b < 256 := h b (by simp)
    have hc : c < 256 := h c (by simp)
    intro ch hch
    simp only [base64Encode, List.mem_cons] at hch
    rcases hch with rfl | rfl | rfl | rfl | h'
    · exact b64Char_ne_colon (by omega)
    · exact b64Char_ne_colon (by omega)
    · exact b64Char_ne_colon (by omega)
    · exact b64Char_ne_colon (by omega)
    · exact base64Encode_noColon rest (fun x hx => h x (by simp [hx])) ch h'

/-! ## Token decomposition -/

theorem splitCol_cons_colon (rest : List Char) :
    splitCol (':' :: rest) = [] :: splitCol rest := by
  simp [splitCol]

theorem splitCol_cons_ne {c : Char} {rest t : List Char} {ts : List (List Char)}
    (h : c ≠ ':') (hs : splitCol rest = t :: ts) :
    splitCol (c :: rest) = (c :: t) :: ts := by
  simp only [splitCol, if_neg h, hs]

theorem splitCol_ne_nil : ∀ l : List Char, splitCol l ≠ [] := by
  intro l
  match l with
  | [] => simp [splitCol]
  | c :: rest =>
    simp only [splitCol]
    by_cases h : c = ':'
    · simp [h]
    · rw [if_neg h]
      cases hs : splitCol rest with
      | nil => simp
      | cons t ts => simp

theorem splitCol_append_colon :
    ∀ xs ys : List Char, splitCol (xs ++ ':' :: ys) = splitCol xs ++ splitCol ys := by
  intro xs ys
  induction xs with
  | nil =>
    rw [List.nil_append, splitCol_cons_colon]
    rfl
  | cons c rest ih =>
    by_cases h : c = ':'
    · subst h
      rw [List.cons_append, splitCol_cons_colon, splitCol_cons_colon, ih, List.cons_append]
    · cases hs : splitCol rest with
      | nil => exact absurd hs (splitCol_ne_nil rest)
      | cons t ts =>
        have hs2 : splitCol (rest ++ ':' :: ys) = t :: (ts ++ splitCol ys) := by
          rw [ih, hs, List.cons_append]
        rw [List.cons_append, splitCol_cons_ne h hs2, splitCol_cons_ne h hs,
          List.cons_append]

theorem splitCol_colonFree :
    ∀ l : List Char, (∀ c ∈ l, c ≠ ':') → splitCol l = [l] := by
  intro l hl
  induction l with
  | nil => rfl
  | cons c rest ih =>
    have hc : c ≠ ':' := hl c (List.mem_cons_self _ _)
    have hrest := ih fun x hx => hl x (List.mem_cons_of_mem _ hx)
    rw [splitCol_cons_ne hc hrest]

theorem splitCol_joinSegs :
    ∀ (s : String) (rest : List String),
      splitCol (joinSegs (s :: rest)).data = splitCol s.data ++ segTokens rest := by
  intro s rest
  induction rest generalizing s with
  | nil => simp [joinSegs, segTokens]
  | cons r rs ih =>
    have hdata : (joinSegs (s :: r :: rs)).data
        = s.data ++ ':' :: (joinSegs (r :: rs)).data := by
      show (s ++ ":" ++ joinSegs (r :: rs)).data = _
      rw [String.data_append, String.data_append, List.append_assoc]
      rfl
    rw [hdata, splitCol_append_colon, ih r]
    simp [segTokens]

theorem splitCol_joinSegs_ne_nil :
    ∀ segs : List String, segs ≠ [] → splitCol (joinSegs segs).data = segTokens segs := by
  intro segs h
  match segs with
  | [] => exact absurd rfl h
  | s :: rest =>
    rw [splitCol_joinSegs]
    simp [segTokens]

/-! ## Rendering: injectivity and delimiter-freedom per declared kind -/

theorem render_clean (k : IdentityValueType) (v : Value)
    (hconf : v.conformsTo k = true)
    (hcln : fieldClean k v = true) :
    ∀ c ∈ (renderIdentity k v).data, c ≠ ':' := by
  cases k with
  | string =>
    cases v with
    | vStr s =>
      simp only [fieldClean, noColon, List.all_eq_true, Bool.not_eq_true',
        decide_eq_false_iff_not] at hcln
      exact hcln
    | vInt n => exact absurd hconf (by simp [Value.conformsTo])
    | vBytes bs => exact absurd hconf (by simp [Value.conformsTo])
    | vBool b => exact absurd hconf (by simp [Value.conformsTo])
  | number =>
    cases v with
    | vInt n => exact intReprChars_noColon
    | vStr s => exact absurd hconf (by simp [Value.conformsTo])
    | vBytes bs => exact absurd hconf (by simp [Value.conformsTo])
    | vBool b => exact absurd hconf (by simp [Value.conformsTo])
  | buffer =>
    cases v with
    | vBytes bs =>
      simp only [Value.conformsTo, List.all_eq_true, decide_eq_true_eq] at hconf
      exact base64Encode_noColon bs hconf
    | vStr s => exact absurd hconf (by simp [Value.conformsTo])
    | vInt n => exact absurd hconf (by simp [Value.conformsTo])
    | vBool b => exact absurd hconf (by simp [Value.conformsTo])
  | boolean =>
    cases v with
    | vBool b =>
      cases b with
      | false => decide
      | true => decide
    | vStr s => exact absurd hconf (by simp [Value.conformsTo])
    | vInt n => exact absurd hconf (by simp [Value.conformsTo])
    | vBytes bs => exact absurd hconf (by simp [Value.conformsTo])

theorem render_inj (k : IdentityValueType) {v1 v2 : Value}
    (h1 : v1.conformsTo k = true) (h2 : v2.conformsTo k = true)
    (h : renderIdentity k v1 = renderIdentity k v2) : v1 = v2 := by
  cases k with
  | string =>
    cases v1 with
    | vStr s1 =>
      cases v2 with
      | vStr s2 => exact congrArg Value.vStr h
      | vInt n => exact absurd h2 (by simp [Value.conformsTo])
      | vBytes bs => exact absurd h2 (by simp [Value.conformsTo])
      | vBool b => exact absurd h2 (by simp [Value.conformsTo])
    | vInt n => exact absurd h1 (by simp [Value.conformsTo])
    | vBytes bs => exact absurd h1 (by simp [Value.conformsTo])
    | vBool b => exact absurd h1 (by simp [Value.conformsTo])
  | number =>
    cases v1 with
    | vInt n1 =>
      cases v2 with
      | vInt n2 => exact congrArg Value.vInt (intRepr_inj h)
      | vStr s => exact absurd h2 (by simp [Value.conformsTo])
      | vBytes bs => exact absurd h2 (by simp [Value.conformsTo])
      | vBool b => exact absurd h2 (by simp [Value.conformsTo])
    | vStr s => exact absurd h1 (by simp [Value.conformsTo])
    | vBytes bs => exact absurd h1 (by simp [Value.conformsTo])
    | vBool b => exact absurd h1 (by simp [Value.conformsTo])
  | buffer =>
    cases v1 with
    | vBytes b1 =>
      cases v2 with
      | vBytes b2 =>
        simp only [Value.conformsTo, List.all_eq_true, decide_eq_true_eq] at h1 h2
        have hdata := congrArg String.data h
        exact congrArg Value.vBytes (base64Encode_inj h1 h2 hdata)
      | vStr s => exact absurd h2 (by simp [Value.conformsTo])
      | vInt n => exact absurd h2 (by simp [Value.conformsTo])
      | vBool b => exact absurd h2 (by simp [Value.conformsTo])
    | vStr s => exact absurd h1 (by simp [Value.conformsTo])
    | vInt n => exact absurd h1 (by simp [Value.conformsTo])
    | vBool b => exact absurd h1 (by simp [Value.conformsTo])
  | boolean =>
    cases v1 with
    | vBool b1 =>
      cases v2 with
      | vBool b2 =>
        cases b1 with
        | true =>
          cases b2 with
          | true => rfl
          | false => exact absurd h (by decide)
        | false =>
          cases b2 with
          | true => exact absurd h (by decide)
          | false => rfl
      | vStr s => exact absurd h2 (by simp [Value.conformsTo])
      | vInt n => exact absurd h2 (by simp [Value.conformsTo])
      | vBytes bs => exact absurd h2 (by simp [Value.conformsTo])
    | vStr s => exact absurd h1 (by simp [Value.conformsTo])
    | vInt n => exact absurd h1 (by simp [Value.conformsTo])
    | vBytes bs => exact absurd h1 (by simp [Value.conformsTo])

/-! ## Key builder: determinism and (conditional) injectivity -/

theorem segTokens_append (l1 l2 : List String) :
    segTokens (l1 ++ l2) = segTokens l1 ++ segTokens l2 := by
  simp [segTokens]

theorem compile_eq_joinSegs (res ent : String) (schema : Schema)
    (attach : Option String) (ids : IdRecord) :
    compileCacheKeyBuilder res ent schema attach ids
      = joinSegs (keySegs res ent schema attach ids) := rfl

theorem keySegs_eq (res ent : String) (schema : Schema) (attach : Option String)
    (ids : IdRecord) :
    keySegs res ent schema attach ids
      = (if attachTruthy attach then [res, "attach", attach.getD "", ent]
         else [res, ent]) ++ fieldSegs schema ids := by
  unfold keySegs fieldSegs
  cases attachTruthy attach <;> simp

theorem joinSegs_tokens_cancel {base f1 f2 : List String} (hbase : base ≠ [])
    (h : joinSegs (base ++ f1) = joinSegs (base ++ f2)) :
    segTokens f1 = segTokens f2 := by
  have hne : ∀ f : List String, base ++ f ≠ [] := by
    intro f
    cases base with
    | nil => exact absurd rfl hbase
    | cons b bs => simp
  have h1 := congrArg splitCol (congrArg String.data h)
  rw [splitCol_joinSegs_ne_nil _ (hne f1), splitCol_joinSegs_ne_nil _ (hne f2),
    segTokens_append, segTokens_append] at h1
  exact List.append_cancel_left h1

theorem fieldSegs_cons (kv0 : String × IdentityValueType) (rest : Schema) (r : IdRecord) :
    fieldSegs (kv0 :: rest) r
      = kv0.1 :: renderIdentity kv0.2 (r kv0.1) :: fieldSegs rest r := by
  simp [fieldSegs]

theorem segTokens_cons (s : String) (l : List String) :
    segTokens (s :: l) = splitCol s.data ++ segTokens l := by
  simp [segTokens]

theorem fieldTokens_inj :
    ∀ (schema : Schema) (r1 r2 : IdRecord),
      recordConforms schema r1 = true → recordConforms schema r2 = true →
      textValuesClean schema r1 = true → textValuesClean schema r2 = true →
      segTokens (fieldSegs schema r1) = segTokens (fieldSegs schema r2) →
      ∀ kv ∈ schema, r1 kv.1 = r2 kv.1 := by
  intro schema
  induction schema with
  | nil =>
    intro r1 r2 _ _ _ _ _ kv hkv
    exact absurd hkv (List.not_mem_nil kv)
  | cons kv0 rest ih =>
    intro r1 r2 hc1 hc2 ht1 ht2 htok kv hkv
    rw [recordConforms, List.all_cons, Bool.and_eq_true] at hc1 hc2
    rw [textValuesClean, List.all_cons, Bool.and_eq_true] at ht1 ht2
    have hexp : ∀ r : IdRecord,
        (r kv0.1).conformsTo kv0.2 = true →
        fieldClean kv0.2 (r kv0.1) = true →
        segTokens (fieldSegs (kv0 :: rest) r)
          = splitCol kv0.1.data
              ++ ((renderIdentity kv0.2 (r kv0.1)).data :: segTokens (fieldSegs rest r)) := by
      intro r hcf hcl
      rw [fieldSegs_cons, segTokens_cons, segTokens_cons,
        splitCol_colonFree _ (render_clean kv0.2 (r kv0.1) hcf hcl)]
      simp
    rw [hexp r1 hc1.1 ht1.1, hexp r2 hc2.1 ht2.1] at htok
    have htok2 := List.append_cancel_left htok
    injection htok2 with hhead htail
    rcases List.mem_cons.mp hkv with rfl | hmem
    · exact render_inj kv.2 hc1.1 hc2.1 (String.ext hhead)
    · exact ih r1 r2 hc1.2 hc2.2 ht1.2 ht2.2 htail kv hmem

theorem compileCacheKeyBuilder_inj
    (res ent : String) (schema : Schema) (attach : Option String) (r1 r2 : IdRecord)
    (hc1 : recordConforms schema r1 = true) (hc2 : recordConforms schema r2 = true)
    (ht1 : textValuesClean schema r1 = true) (ht2 : textValuesClean schema r2 = true)
    (hkey : compileCacheKeyBuilder res ent schema attach r1
      = compileCacheKeyBuilder res ent schema attach r2) :
    ∀ kv ∈ schema, r1 kv.1 = r2 kv.1 := by
  rw [compile_eq_joinSegs, compile_eq_joinSegs, keySegs_eq, keySegs_eq] at hkey
  have hbase : (if attachTruthy attach then [res, "attach", attach.getD "", ent]
      else [res, ent]) ≠ [] := by
    cases attachTruthy attach <;> simp
  exact fieldTokens_inj schema r1 r2 hc1 hc2 ht1 ht2 (joinSegs_tokens_cancel hbase hkey)

theorem compileCacheKeyBuilder_det
    (res ent : String) (schema : Schema) (attach : Option String) (r1 r2 : IdRecord)
    (hagree : ∀ kv ∈ schema, r1 kv.1 = r2 kv.1) :
    compileCacheKeyBuilder res ent schema attach r1
      = compileCacheKeyBuilder res ent schema attach r2 := by
  rw [compile_eq_joinSegs, compile_eq_joinSegs, keySegs_eq, keySegs_eq]
  have hflat : fieldSegs schema r1 = fieldSegs schema r2 := by
    induction schema with
    | nil => rfl
    | cons kv rest ih =>
      rw [fieldSegs_cons, fieldSegs_cons,
        hagree kv (List.mem_cons_self _ _),
        ih fun kv' h => hagree kv' (List.mem_cons_of_mem _ h)]
  rw [hflat]

/-! # Claim theorems -/

/-- C1 (counterexample): the claim's injectivity direction fails as stated:
over the entry schema `{a: string, b: string}`, the records
`{a: "1:b:2", b: "3"}` and `{a: "1", b: "2:b:3"}` differ on the declared
field "a" yet the compiled key builder renders the identical key for both
(string values containing the delimiter `':'` shift the segment
boundaries). -/
theorem claim_C1_counterexample :
    compileCacheKeyBuilder "res" "ent" collideSchema none collideR1
      = compileCacheKeyBuilder "res" "ent" collideSchema none collideR2
    ∧ collideR1 "a" ≠ collideR2 "a" := by
  constructor
  · rfl
  · decide

/-- C1 (amended): for every entry the compiled key builder is a pure
deterministic function of the declared identity fields — records agreeing
on every declared field render the same key; and records that differ on a
declared field render different keys provided the supplied values have the
declared kinds and no string-kind value contains the delimiter `':'`
(contrapositive form: equal keys force agreement on every declared
field). -/
theorem claim_C1_amended
    (res ent : String) (schema : Schema) (attach : Option String) (r1 r2 : IdRecord) :
    ((∀ kv ∈ schema, r1 kv.1 = r2 kv.1) →
      compileCacheKeyBuilder res ent schema attach r1
        = compileCacheKeyBuilder res ent schema attach r2)
    ∧ (recordConforms schema r1 = true → recordConforms schema r2 = true →
       textValuesClean schema r1 = true → textValuesClean schema r2 = true →
       compileCacheKeyBuilder res ent schema attach r1
         = compileCacheKeyBuilder res ent schema attach r2 →
       ∀ kv ∈ schema, r1 kv.1 = r2 kv.1) :=
  ⟨compileCacheKeyBuilder_det res ent schema attach r1 r2,
   compileCacheKeyBuilder_inj res ent schema attach r1 r2⟩

/-- Witness for the amended C1 at the demonstration entry: two distinct
record functions agreeing on the declared field "id" render the same key,
and the rendered-key equality forces agreement on "id". -/
theorem claim_C1_witness :
    compileCacheKeyBuilder "users" "primary" demoSchema none (fun _ => Value.vInt 123)
      = compileCacheKeyBuilder "users" "primary" demoSchema none demoId
    ∧ (fun _ => Value.vInt 123 : IdRecord) "id" = demoId "id" := by
  constructor
  · exact (claim_C1_amended "users" "primary" demoSchema none
      (fun _ => Value.vInt 123) demoId).1 (fun kv _ => rfl)
  · exact (claim_C1_amended "users" "primary" demoSchema none
      (fun _ => Value.vInt 123) demoId).2 (by decide) (by decide) (by decide) (by decide)
      rfl ("id", IdentityValueType.number) (by decide)

/-- C4 (counterexample): the claimed key shape fails for an attachment
whose name is the empty string: the source's `if (attachment)` is
JS-truthiness, so the "attach" namespace segments are dropped and the
rendered key is "res:ent" rather than the claimed "res:attach::ent". -/
theorem claim_C4_counterexample :
    compileCacheKeyBuilder "res" "ent" [] (some "") anyId = "res:ent"
    ∧ joinSegs (specKeySegments "res" "ent" [] (some "") anyId) = "res:attach::ent"
    ∧ compileCacheKeyBuilder "res" "ent" [] (some "") anyId
        ≠ joinSegs (specKeySegments "res" "ent" [] (some "") anyId) := by
  refine ⟨rfl, rfl, ?_⟩
  decide

/-- C4 (amended): for an absent attachment or any non-empty attachment
name, the rendered key is exactly the claimed join with ":" of the ordered
segments `[resource, ("attach", attachmentName)?, entryOrAttachmentName,
(fieldName, renderedValue)*]` in declared field order, with text/number
values rendered literally, buffers as base64, booleans as
"true"/"false". -/
theorem claim_C4_amended (res ent : String) (schema : Schema) (attach : Option String)
    (ids : IdRecord) (h : attach ≠ some "") :
    compileCacheKeyBuilder res ent schema attach ids
      = joinSegs (specKeySegments res ent schema attach ids) := by
  cases attach with
  | none => rfl
  | some a =>
    have ha : ¬(a = "") := fun he => h (by rw [he])
    rw [compile_eq_joinSegs, keySegs_eq]
    have hat : attachTruthy (some a) = true := by
      simp [attachTruthy, ha]
    rw [hat]
    simp [specKeySegments, fieldSegs]

/-- Witness for the amended C4: the attachment "roles" of the
demonstration resource renders its key in the claimed shape. -/
theorem claim_C4_witness :
    compileCacheKeyBuilder "users" "roles" demoSchema (some "roles") demoId
      = joinSegs (specKeySegments "users" "roles" demoSchema (some "roles") demoId) :=
  claim_C4_amended "users" "roles" demoSchema (some "roles") demoId (by decide)

/-- C9: the entry and attachment registries are written only by the
registration methods: every other public operation returns with both
registries unchanged, whether it succeeded or failed. -/
theorem claim_C9 {T : Type} (op : ZoneOp T) (z : Zone T) (d : Driver)
    (h : op.isRegister = false) :
    (runZoneOp op z d).2.1.entries = z.entries
    ∧ (runZoneOp op z d).2.1.attachments = z.attachments := by
  cases op with
  | registerEntry name keys ttl neTTL => simp [ZoneOp.isRegister] at h
  | registerAttachment name entry ser unser ttl neTTL => simp [ZoneOp.isRegister] at h
  | read entry identity =>
    rcases hr : read z d entry identity with ⟨r, evs, cs⟩
    simp [runZoneOp, hr]
  | readMulti entry identities =>
    rcases hr : readMulti z d entry identities with ⟨r, evs, cs⟩
    simp [runZoneOp, hr]
  | write entry data identity ttl =>
    rcases hr : write z d entry data identity ttl with ⟨r, evs, cs⟩
    simp [runZoneOp, hr]
  | writeMulti entry data identities =>
    rcases hr : writeMulti z d entry data identities with ⟨r, evs, cs⟩
    simp [runZoneOp, hr]
  | put data ttl =>
    rcases hr : put z d data ttl with ⟨r, evs, cs⟩
    simp [runZoneOp, hr]
  | putMulti data =>
    rcases hr : putMulti z d data with ⟨r, evs, cs⟩
    simp [runZoneOp, hr]
  | markNeverExist entry identity =>
    rcases hr : markNeverExist z d entry identity with ⟨r, evs, cs⟩
    simp [runZoneOp, hr]
  | markMultiNeverExist entry identities =>
    rcases hr : markMultiNeverExist z d entry identities with ⟨r, evs, cs⟩
    simp [runZoneOp, hr]
  | exists' entry identity =>
    rcases hr : exists' z d entry identity with ⟨r, evs, cs⟩
    simp [runZoneOp, hr]
  | remove entry identity =>
    rcases hr : remove z d entry identity with ⟨r, evs, cs⟩
    simp [runZoneOp, hr]
  | removeMulti entry identities =>
    rcases hr : removeMulti z d entry identities with ⟨r, evs, cs⟩
    simp [runZoneOp, hr]
  | readAttachment name identity =>
    rcases hr : readAttachment z d name identity with ⟨r, evs, cs⟩
    simp [runZoneOp, hr]
  | writeAttachment name identity data =>
    rcases hr : writeAttachment z d name identity data with ⟨r, evs, cs⟩
    simp [runZoneOp, hr]
  | removeAttachment name identity =>
    rcases hr : removeAttachment z d name identity with ⟨r, evs, cs⟩
    simp [runZoneOp, hr]
  | removeAllAttachments data =>
    rcases hr : removeAllAttachments z d data with ⟨r, evs, cs⟩
    simp [runZoneOp, hr]
  | flush data includeAttachment =>
    rcases hr : flush z d data includeAttachment with ⟨r, evs, cs⟩
    simp [runZoneOp, hr]

/-- Witness for C9 at a concrete operation: `flush` leaves the
demonstration zone's registries unchanged. -/
theorem claim_C9_witness :
    (runZoneOp (ZoneOp.flush "x" false) demoZone okDriver).2.1.entries
      = demoZone.entries
    ∧ (runZoneOp (ZoneOp.flush "x" false) demoZone okDriver).2.1.attachments
      = demoZone.attachments :=
  claim_C9 (ZoneOp.flush "x" false) demoZone okDriver rfl

/-- C2 (counterexample): not every public operation contains its errors:
`registerEntry` of a duplicate name has no try/catch — the error propagates
to the caller (`OpResult.raised`) and nothing is published on the error
channel (zero events, not one). -/
theorem claim_C2_counterexample :
    (runZoneOp (ZoneOp.registerEntry "primary" demoSchema 0 900) demoZone okDriver).1
      = OpResult.raised (entryExistsMsg "primary" "users")
    ∧ (runZoneOp (ZoneOp.registerEntry "primary" demoSchema 0 900)
        demoZone okDriver).2.2.1 = [] :=
  ⟨rfl, rfl⟩

/-- C2 (amended): every public operation except the two registration
methods is a scoped boundary: when its body raises an error (precondition
violation or driver/deserializer failure), the operation publishes exactly
that error once on the error channel and returns its safe default (null
for reads, false for boolean operations, 0 for removeMulti, an array of
null of the input length for readMulti); `registerEntry` and
`registerAttachment` instead propagate the error to the caller. -/
theorem claim_C2_amended {T : Type} (op : ZoneOp T) (z : Zone T) (d : Driver) (e : String)
    (hreg : op.isRegister = false) (hrs : zoneOpRaises op z d = some e) :
    (runZoneOp op z d).1 = safeDefault op ∧ (runZoneOp op z d).2.2.1 = [e] := by
  cases op with
  | registerEntry name keys ttl neTTL => simp [ZoneOp.isRegister] at hreg
  | registerAttachment name entry ser unser ttl neTTL => simp [ZoneOp.isRegister] at hreg
  | read entry identity =>
    rcases htry : tryRead z d entry identity with ⟨res, cs⟩
    cases res with
    | error e2 =>
      have he : e2 = e := by simpa [zoneOpRaises, htry, exceptErr] using hrs
      subst he
      exact ⟨by simp [runZoneOp, read, htry, safeDefault], by simp [runZoneOp, read, htry]⟩
    | ok r => exact absurd hrs (by simp [zoneOpRaises, htry, exceptErr])
  | readMulti entry identities =>
    rcases htry : tryReadMulti z d entry identities with ⟨res, cs⟩
    cases res with
    | error e2 =>
      have he : e2 = e := by simpa [zoneOpRaises, htry, exceptErr] using hrs
      subst he
      exact ⟨by simp [runZoneOp, readMulti, htry, safeDefault],
        by simp [runZoneOp, readMulti, htry]⟩
    | ok r => exact absurd hrs (by simp [zoneOpRaises, htry, exceptErr])
  | write entry data identity ttl =>
    rcases htry : tryWrite z d entry data identity ttl with ⟨res, cs⟩
    cases res with
    | error e2 =>
      have he : e2 = e := by simpa [zoneOpRaises, htry, exceptErr] using hrs
      subst he
      exact ⟨by simp [runZoneOp, write, htry, safeDefault],
        by simp [runZoneOp, write, htry]⟩
    | ok r => exact absurd hrs (by simp [zoneOpRaises, htry, exceptErr])
  | writeMulti entry data identities =>
    rcases htry : tryWriteMulti z d entry data identities with ⟨res, cs⟩
    cases res with
    | error e2 =>
      have he : e2 = e := by simpa [zoneOpRaises, htry, exceptErr] using hrs
      subst he
      exact ⟨by simp [runZoneOp, writeMulti, htry, safeDefault],
        by simp [runZoneOp, writeMulti, htry]⟩
    | ok r => exact absurd hrs (by simp [zoneOpRaises, htry, exceptErr])
  | put data ttl =>
    rcases htry : tryPut z d data ttl with ⟨res, cs⟩
    cases res with
    | error e2 =>
      have he : e2 = e := by simpa [zoneOpRaises, htry, exceptErr] using hrs
      subst he
      exact ⟨by simp [runZoneOp, put, htry, safeDefault], by simp [runZoneOp, put, htry]⟩
    | ok r => exact absurd hrs (by simp [zoneOpRaises, htry, exceptErr])
  | putMulti data =>
    rcases htry : tryPutMulti z d data with ⟨res, cs⟩
    cases res with
    | error e2 =>
      have he : e2 = e := by simpa [zoneOpRaises, htry, exceptErr] using hrs
      subst he
      exact ⟨by simp [runZoneOp, putMulti, htry, safeDefault],
        by simp [runZoneOp, putMulti, htry]⟩
    | ok r => exact absurd hrs (by simp [zoneOpRaises, htry, exceptErr])
  | markNeverExist entry identity =>
    rcases htry : tryMarkNeverExist z d entry identity with ⟨res, cs⟩
    cases res with
    | error e2 =>
      have he : e2 = e := by simpa [zoneOpRaises, htry, exceptErr] using hrs
      subst he
      exact ⟨by simp [runZoneOp, markNeverExist, htry, safeDefault],
        by simp [runZoneOp, markNeverExist, htry]⟩
    | ok r => exact absurd hrs (by simp [zoneOpRaises, htry, exceptErr])
  | markMultiNeverExist entry identities =>
    rcases htry : tryMarkMultiNeverExist z d entry identities with ⟨res, cs⟩
    cases res with
    | error e2 =>
      have he : e2 = e := by simpa [zoneOpRaises, htry, exceptErr] using hrs
      subst he
      exact ⟨by simp [runZoneOp, markMultiNeverExist, htry, safeDefault],
        by simp [runZoneOp, markMultiNeverExist, htry]⟩
    | ok r => exact absurd hrs (by simp [zoneOpRaises, htry, exceptErr])
  | exists' entry identity =>
    rcases htry : tryExists z d entry identity with ⟨res, cs⟩
    cases res with
    | error e2 =>
      have he : e2 = e := by simpa [zoneOpRaises, htry, exceptErr] using hrs
      subst he
      exact ⟨by simp [runZoneOp, exists', htry, safeDefault],
        by simp [runZoneOp, exists', htry]⟩
    | ok r => exact absurd hrs (by simp [zoneOpRaises, htry, exceptErr])
  | remove entry identity =>
    rcases htry : tryRemove z d entry identity with ⟨res, cs⟩
    cases res with
    | error e2 =>
      have he : e2 = e := by simpa [zoneOpRaises, htry, exceptErr] using hrs
      subst he
      exact ⟨by simp [runZoneOp, remove, htry, safeDefault],
        by simp [runZoneOp, remove, htry]⟩
    | ok r => exact absurd hrs (by simp [zoneOpRaises, htry, exceptErr])
  | removeMulti entry identities =>
    rcases htry : tryRemoveMulti z d entry identities with ⟨res, cs⟩
    cases res with
    | error e2 =>
      have he : e2 = e := by simpa [zoneOpRaises, htry, exceptErr] using hrs
      subst he
      exact ⟨by simp [runZoneOp, removeMulti, htry, safeDefault],
        by simp [runZoneOp, removeMulti, htry]⟩
    | ok r => exact absurd hrs (by simp [zoneOpRaises, htry, exceptErr])
  | readAttachment name identity =>
    rcases htry : tryReadAttachment z d name identity with ⟨res, cs⟩
    cases res with
    | error e2 =>
      have he : e2 = e := by simpa [zoneOpRaises, htry, exceptErr] using hrs
      subst he
      exact ⟨by simp [runZoneOp, readAttachment, htry, safeDefault],
        by simp [runZoneOp, readAttachment, htry]⟩
    | ok r => exact absurd hrs (by simp [zoneOpRaises, htry, exceptErr])
  | writeAttachment name identity data =>
    rcases htry : tryWriteAttachment z d name identity data with ⟨res, cs⟩
    cases res with
    | error e2 =>
      have he : e2 = e := by simpa [zoneOpRaises, htry, exceptErr] using hrs
      subst he
      exact ⟨by simp [runZoneOp, writeAttachment, htry, safeDefault],
        by simp [runZoneOp, writeAttachment, htry]⟩
    | ok r => exact absurd hrs (by simp [zoneOpRaises, htry, exceptErr])
  | removeAttachment name identity =>
    rcases htry : tryRemoveAttachment z d name identity with ⟨res, cs⟩
    cases res with
    | error e2 =>
      have he : e2 = e := by simpa [zoneOpRaises, htry, exceptErr] using hrs
      subst he
      exact ⟨by simp [runZoneOp, removeAttachment, htry, safeDefault],
        by simp [runZoneOp, removeAttachment, htry]⟩
    | ok r => exact absurd hrs (by simp [zoneOpRaises, htry, exceptErr])
  | removeAllAttachments data =>
    rcases htry : tryRemoveAllAttachments z d data with ⟨res, cs⟩
    cases res with
    | error e2 =>
      have he : e2 = e := by simpa [zoneOpRaises, htry, exceptErr] using hrs
      subst he
      exact ⟨by simp [runZoneOp, removeAllAttachments, htry, safeDefault],
        by simp [runZoneOp, removeAllAttachments, htry]⟩
    | ok r => exact absurd hrs (by simp [zoneOpRaises, htry, exceptErr])
  | flush data includeAttachment =>
    rcases htry : tryFlush z d data includeAttachment with ⟨res, cs⟩
    cases res with
    | error e2 =>
      have he : e2 = e := by simpa [zoneOpRaises, htry, exceptErr] using hrs
      subst he
      exact ⟨by simp [runZoneOp, flush, htry, safeDefault],
        by simp [runZoneOp, flush, htry]⟩
    | ok r => exact absurd hrs (by simp [zoneOpRaises, htry, exceptErr])

/-- Witness for the amended C2: `read` against a down driver raises the
driver-unusable error internally, publishes it once, and returns null. -/
theorem claim_C2_witness :
    (runZoneOp (ZoneOp.read "primary" demoId) demoZone downDriver).1
      = safeDefault (ZoneOp.read "primary" demoId)
    ∧ (runZoneOp (ZoneOp.read "primary" demoId) demoZone downDriver).2.2.1
      = [cacheDownMsg] :=
  claim_C2_amended (ZoneOp.read "primary" demoId) demoZone downDriver cacheDownMsg
    rfl rfl

/-- C3: `read` maps the driver's tri-state result: a payload is returned
deserialized, the NEVER-EXISTED marker (`undefined`) passes through as
confirmed-absent, absence (`null`) passes through as unknown; and whenever
the body raises (unknown entry, unusable driver, driver or deserializer
failure), the error is emitted once and `read` returns null instead of
propagating. -/
theorem claim_C3 {T : Type} (z : Zone T) (d : Driver) (entry : String)
    (identity : IdRecord) :
    (∀ en, jsGet z.entries entry = some en → d.usable = true →
      ((d.get (en.buildKey identity) = Except.ok GetRes.nullRes →
          read z d entry identity
            = (ReadResult.unknown, [],
                [DriverCall.usable, DriverCall.get (en.buildKey identity)]))
       ∧ (d.get (en.buildKey identity) = Except.ok GetRes.undefRes →
          read z d entry identity
            = (ReadResult.neverExisted, [],
                [DriverCall.usable, DriverCall.get (en.buildKey identity)]))
       ∧ (∀ s v, d.get (en.buildKey identity) = Except.ok (GetRes.found s) →
          z.unserialize s = Except.ok v →
          read z d entry identity
            = (ReadResult.value v, [],
                [DriverCall.usable, DriverCall.get (en.buildKey identity)]))))
    ∧ (∀ e, (tryRead z d entry identity).1 = Except.error e →
        read z d entry identity
          = (ReadResult.unknown, [e], (tryRead z d entry identity).2)) := by
  constructor
  · intro en hen hu
    have hgate : usableGate d = Except.ok () := by simp [usableGate, hu]
    refine ⟨?_, ?_, ?_⟩
    · intro hget
      simp [read, tryRead, hgate, hen, hget, decodeGet]
    · intro hget
      simp [read, tryRead, hgate, hen, hget, decodeGet]
    · intro s v hget huns
      simp [read, tryRead, hgate, hen, hget, decodeGet, huns, Except.map]
  · intro e herr
    rcases htry : tryRead z d entry identity with ⟨res, cs⟩
    rw [htry] at herr
    cases res with
    | error e2 =>
      have he : e2 = e := by simpa using herr
      subst he
      simp [read, htry]
    | ok r => exact absurd herr (by simp)

/-- Witness for C3: against the demonstration zone and a driver that finds
the payload "v", `read` of `{id: 123}` returns the deserialized value. -/
theorem claim_C3_witness :
    read demoZone foundDriver "primary" demoId
      = (ReadResult.value "v", [],
          [DriverCall.usable, DriverCall.get "users:primary:id:123"]) :=
  ((claim_C3 demoZone foundDriver "primary" demoId).1 demoEntry rfl rfl).2.2 "v" "v"
    rfl rfl

/-- C7: `writeMulti` with supplied identities of mismatched length returns
false, emits exactly one error event, and performs no store-mutating
driver call whatsoever (the store is unchanged). -/
theorem claim_C7 {T : Type} (z : Zone T) (d : Driver) (entry : String) (data : List T)
    (ids : List IdRecord) (hlen : ids.length ≠ data.length) :
    (writeMulti z d entry data (some ids)).1 = false
    ∧ (writeMulti z d entry data (some ids)).2.1.length = 1
    ∧ ((writeMulti z d entry data (some ids)).2.2.all fun c => !c.mutatesStore) = true
    ∧ ∀ st : List (String × CacheBody),
        (writeMulti z d entry data (some ids)).2.2.foldl applyCall st = st := by
  by_cases hu : d.usable
  · have hgate : usableGate d = Except.ok () := by simp [usableGate, hu]
    cases hen : jsGet z.entries entry with
    | none =>
      refine ⟨?_, ?_, ?_, ?_⟩ <;>
        simp [writeMulti, tryWriteMulti, hgate, hen, DriverCall.mutatesStore, applyCall]
    | some en =>
      refine ⟨?_, ?_, ?_, ?_⟩ <;>
        simp [writeMulti, tryWriteMulti, hgate, hen, hlen,
          DriverCall.mutatesStore, applyCall]
  · have hgate : usableGate d = Except.error cacheDownMsg := by simp [usableGate, hu]
    refine ⟨?_, ?_, ?_, ?_⟩ <;>
      simp [writeMulti, tryWriteMulti, hgate, DriverCall.mutatesStore, applyCall]

/-- Witness for C7: a two-item batch with a one-identity list fails soft:
false, one event, no store mutation. -/
theorem claim_C7_witness :
    (writeMulti demoZone okDriver "primary" ["a", "b"] (some [demoId])).1 = false
    ∧ (writeMulti demoZone okDriver "primary" ["a", "b"] (some [demoId])).2.1.length = 1
    ∧ ((writeMulti demoZone okDriver "primary" ["a", "b"]
        (some [demoId])).2.2.all fun c => !c.mutatesStore) = true
    ∧ (writeMulti demoZone okDriver "primary" ["a", "b"]
        (some [demoId])).2.2.foldl applyCall [] = [] := by
  have h := claim_C7 demoZone okDriver "primary" ["a", "b"] [demoId] (by decide)
  exact ⟨h.1, h.2.1, h.2.2.1, h.2.2.2 []⟩

/-- C5 (counterexample): a fan-out write that fails by resolving `false`
(the driver contract's "not written successfully") does not fail the
call: `put` still returns true and emits no error event, because
`Promise.all`'s resolved booleans are discarded and the body returns
`true` unconditionally. -/
theorem claim_C5_counterexample :
    put demoZone falseSetDriver "hello" none
      = (true, [], [DriverCall.usable,
          DriverCall.set "users:primary:id:hello" (CacheBody.payload "hello") 0])
    ∧ falseSetDriver.set "users:primary:id:hello" (CacheBody.payload "hello") 0
      = Except.ok false :=
  ⟨rfl, rfl⟩

/-- C5 (amended): with a usable driver, `put` fans out exactly one driver
`set` per registered entry (and `putMulti` one per entry per data item);
the call returns true iff no fan-out write rejects — a rejection anywhere
fails the whole call, which then returns false with the rejection reported
exactly once — while the boolean results of resolved writes are
discarded. -/
theorem claim_C5_amended {T : Type} (z : Zone T) (d : Driver) (data : T)
    (ttl : Option Nat) (items : List T) (hu : d.usable = true) :
    ((put z d data ttl).2.2 = DriverCall.usable :: putCalls z data ttl
     ∧ (putCalls z data ttl).length = z.entries.length
     ∧ (firstError (putSets z d data ttl) = none →
        put z d data ttl = (true, [], DriverCall.usable :: putCalls z data ttl))
     ∧ (∀ e, firstError (putSets z d data ttl) = some e →
        put z d data ttl = (false, [e], DriverCall.usable :: putCalls z data ttl)))
    ∧ ((putMulti z d items).2.2 = DriverCall.usable :: putMultiCalls z items
       ∧ (putMultiCalls z items).length = items.length * z.entries.length
       ∧ (firstError (putMultiSets z d items) = none →
          putMulti z d items = (true, [], DriverCall.usable :: putMultiCalls z items))
       ∧ (∀ e, firstError (putMultiSets z d items) = some e →
          putMulti z d items = (false, [e], DriverCall.usable :: putMultiCalls z items))) := by
  have hgate : usableGate d = Except.ok () := by simp [usableGate, hu]
  constructor
  · refine ⟨?_, ?_, ?_, ?_⟩
    · cases hfe : firstError (putSets z d data ttl) <;>
        simp [put, tryPut, hgate, hfe]
    · simp [putCalls]
    · intro hfe
      simp [put, tryPut, hgate, hfe]
    · intro e hfe
      simp [put, tryPut, hgate, hfe]
  · refine ⟨?_, ?_, ?_, ?_⟩
    · cases hfe : firstError (putMultiSets z d items) <;>
        simp [putMulti, tryPutMulti, hgate, hfe]
    · induction items with
      | nil => simp [putMultiCalls]
      | cons x xs ih =>
        simp only [putMultiCalls, List.flatMap_cons, List.length_append,
          List.length_map, List.length_cons] at ih ⊢
        rw [ih]
        ring
    · intro hfe
      simp [putMulti, tryPutMulti, hgate, hfe]
    · intro e hfe
      simp [putMulti, tryPutMulti, hgate, hfe]

/-- Witness for the amended C5: with the always-resolving driver, `put`
and `putMulti` succeed and issue the fan-out call lists. -/
theorem claim_C5_witness :
    put demoZone okDriver "hello" none
      = (true, [], DriverCall.usable :: putCalls demoZone "hello" none)
    ∧ putMulti demoZone okDriver ["a"]
      = (true, [], DriverCall.usable :: putMultiCalls demoZone ["a"]) := by
  have h := claim_C5_amended demoZone okDriver "hello" none ["a"] rfl
  exact ⟨h.1.2.2.1 rfl, h.2.2.2.1 rfl⟩

/-- The translation loop of `readMulti` characterised element-wise: when
it succeeds, the result has one element per key and the i-th element is
the decoded driver result for the i-th key. -/
theorem readMultiCollect_spec {T : Type} (unser : String → Except String T)
    (f : String → GetRes) :
    ∀ (keys : List String) (rs : List (ReadResult T)),
      readMultiCollect unser f keys = Except.ok rs →
      rs.length = keys.length
      ∧ ∀ (i : Nat) (h1 : i < rs.length) (h2 : i < keys.length),
          Except.ok (rs.get ⟨i, h1⟩) = decodeGet unser (f (keys.get ⟨i, h2⟩)) := by
  intro keys
  induction keys with
  | nil =>
    intro rs h
    simp only [readMultiCollect, Except.ok.injEq] at h
    subst h
    exact ⟨rfl, fun i h1 h2 => absurd h1 (by simp)⟩
  | cons k rest ih =>
    intro rs h
    simp only [readMultiCollect] at h
    cases hd : decodeGet unser (f k) with
    | error e =>
      rw [hd] at h
      exact absurd h (by simp)
    | ok r =>
      rw [hd] at h
      cases hrec : readMultiCollect unser f rest with
      | error e =>
        rw [hrec] at h
        exact absurd h (by simp)
      | ok rs' =>
        rw [hrec] at h
        simp only [Except.ok.injEq] at h
        subst h
        obtain ⟨hl, hi⟩ := ih rs' hrec
        refine ⟨by simp [hl], ?_⟩
        intro i h1 h2
        cases i with
        | zero => simpa using hd.symm
        | succ n =>
          have h1' : n < rs'.length := by simpa using h1
          have h2' : n < rest.length := by simpa using h2
          simpa using hi n h1' h2'

/-- C6: `readMulti` returns one element per requested identity, in order:
the i-th element is the decoded tri-state driver result for the i-th
identity's key; and when the batch fails anywhere, the error is reported
exactly once and the result is an array of null of the input length. -/
theorem claim_C6 {T : Type} (z : Zone T) (d : Driver) (entry : String)
    (identities : List IdRecord) :
    (∀ en f rs, jsGet z.entries entry = some en → d.usable = true →
      d.getMulti (identities.map en.buildKey) = Except.ok f →
      readMultiCollect z.unserialize f (identities.map en.buildKey) = Except.ok rs →
      (readMulti z d entry identities
         = (rs, [], [DriverCall.usable, DriverCall.getMulti (identities.map en.buildKey)])
       ∧ rs.length = identities.length
       ∧ ∀ (i : Nat) (h1 : i < rs.length) (h2 : i < identities.length),
           Except.ok (rs.get ⟨i, h1⟩)
             = decodeGet z.unserialize (f (en.buildKey (identities.get ⟨i, h2⟩)))))
    ∧ (∀ e, (tryReadMulti z d entry identities).1 = Except.error e →
        readMulti z d entry identities
          = (identities.map fun _ => ReadResult.unknown, [e],
              (tryReadMulti z d entry identities).2)) := by
  constructor
  · intro en f rs hen hu hgm hcol
    have hgate : usableGate d = Except.ok () := by simp [usableGate, hu]
    obtain ⟨hl, hi⟩ := readMultiCollect_spec z.unserialize f (identities.map en.buildKey)
      rs hcol
    refine ⟨?_, ?_, ?_⟩
    · simp [readMulti, tryReadMulti, hgate, hen, hgm, hcol]
    · simpa using hl
    · intro i h1 h2
      have h2' : i < (identities.map en.buildKey).length := by simpa using h2
      have := hi i h1 h2'
      have hkey : (identities.map en.buildKey).get ⟨i, h2'⟩
          = en.buildKey (identities.get ⟨i, h2⟩) := by
        simp
      rwa [hkey] at this
  · intro e herr
    rcases htry : tryReadMulti z d entry identities with ⟨res, cs⟩
    rw [htry] at herr
    cases res with
    | error e2 =>
      have he : e2 = e := by simpa using herr
      subst he
      simp [readMulti, htry]
    | ok r => exact absurd herr (by simp)

/-- Witness for C6: a one-identity batch against a driver finding "v"
yields the one-element decoded result. -/
theorem claim_C6_witness :
    readMulti demoZone foundDriver "primary" [demoId]
      = ([ReadResult.value "v"], [],
          [DriverCall.usable, DriverCall.getMulti ["users:primary:id:123"]]) :=
  (((claim_C6 demoZone foundDriver "primary" [demoId]).1 demoEntry
    (fun _ => GetRes.found "v") [ReadResult.value "v"] rfl rfl rfl rfl)).1

/-! ## JS record lemmas -/

theorem jsGet_jsSet_self {α : Type} (r : List (String × α)) (k : String) (v : α) :
    jsGet (jsSet r k v) k = some v := by
  induction r with
  | nil => simp [jsSet, jsGet]
  | cons p rest ih =>
    by_cases h : p.1 = k
    · simp [jsSet, h, jsGet]
    · simp [jsSet, h, jsGet, ih]

/-- C8: tri-state round trip over the in-memory driver with an inverse
serializer pair: `write` then `read` at the data's own identity returns
the written value; `markNeverExist` stores the marker under the entry's
`neTTL` and a subsequent `read` returns confirmed-absent (`undefined`,
not null); and `read` of a key never written nor marked returns null
(unknown). -/
theorem claim_C8 {T : Type} (z : Zone T) (st : List (String × CacheBody))
    (entry : String) (en : Entry) (data : T) (identity : IdRecord)
    (hen : jsGet z.entries entry = some en)
    (hser : ∀ t, ∃ s, z.serialize t = CacheBody.payload s ∧ z.unserialize s = Except.ok t) :
    (read z
        (memDriver ((write z (memDriver st) entry data none none).2.2.foldl applyCall st))
        entry (z.toIdent data)).1 = ReadResult.value data
    ∧ (markNeverExist z (memDriver st) entry identity).2.2
        = [DriverCall.usable,
            DriverCall.set (en.buildKey identity) CacheBody.marker en.neTTL]
    ∧ (read z
        (memDriver ((markNeverExist z (memDriver st) entry identity).2.2.foldl
          applyCall st)) entry identity).1 = ReadResult.neverExisted
    ∧ (jsGet st (en.buildKey identity) = none →
       (read z (memDriver st) entry identity).1 = ReadResult.unknown) := by
  obtain ⟨s, hs1, hs2⟩ := hser data
  refine ⟨?_, ?_, ?_, ?_⟩
  · have hw : write z (memDriver st) entry data none none
        = (true, [], [DriverCall.usable,
            DriverCall.set (en.buildKey (z.toIdent data)) (CacheBody.payload s) en.ttl]) := by
      simp [write, tryWrite, usableGate, memDriver, hen, hs1]
    rw [hw]
    have hst1 : [DriverCall.usable,
        DriverCall.set (en.buildKey (z.toIdent data)) (CacheBody.payload s)
          en.ttl].foldl applyCall st
        = jsSet st (en.buildKey (z.toIdent data)) (CacheBody.payload s) := by
      simp [applyCall]
    rw [hst1]
    simp [read, tryRead, usableGate, memDriver, hen, jsGet_jsSet_self, decodeGet, hs2,
      Except.map]
  · simp [markNeverExist, tryMarkNeverExist, usableGate, memDriver, hen]
  · have hm : markNeverExist z (memDriver st) entry identity
        = (true, [], [DriverCall.usable,
            DriverCall.set (en.buildKey identity) CacheBody.marker en.neTTL]) := by
      simp [markNeverExist, tryMarkNeverExist, usableGate, memDriver, hen]
    rw [hm]
    have hst1 : [DriverCall.usable,
        DriverCall.set (en.buildKey identity) CacheBody.marker en.neTTL].foldl
          applyCall st
        = jsSet st (en.buildKey identity) CacheBody.marker := by
      simp [applyCall]
    rw [hst1]
    simp [read, tryRead, usableGate, memDriver, hen, jsGet_jsSet_self, decodeGet]
  · intro habs
    simp [read, tryRead, usableGate, memDriver, hen, habs, decodeGet]

/-- Witness for C8: the round trip at the demonstration zone with the
identity serializer pair, starting from the empty store. -/
theorem claim_C8_witness :
    (read demoZone
        (memDriver ((write demoZone (memDriver []) "primary" "hello" none
          none).2.2.foldl applyCall [])) "primary" (demoZone.toIdent "hello")).1
      = ReadResult.value "hello"
    ∧ (markNeverExist demoZone (memDriver []) "primary" demoId).2.2
        = [DriverCall.usable,
            DriverCall.set (demoEntry.buildKey demoId) CacheBody.marker demoEntry.neTTL]
    ∧ (read demoZone
        (memDriver ((markNeverExist demoZone (memDriver []) "primary"
          demoId).2.2.foldl applyCall [])) "primary" demoId).1
      = ReadResult.neverExisted
    ∧ (read demoZone (memDriver []) "primary" demoId).1 = ReadResult.unknown := by
  have h := claim_C8 demoZone [] "primary" demoEntry "hello" demoId rfl
    (fun t => ⟨t, rfl, rfl⟩)
  exact ⟨h.1, h.2.1, h.2.2.1, h.2.2.2 rfl⟩

theorem jsGet_jsSet_ne {α : Type} (r : List (String × α)) {k k' : String} (v : α)
    (h : k ≠ k') : jsGet (jsSet r k v) k' = jsGet r k' := by
  induction r with
  | nil => simp [jsSet, jsGet, h]
  | cons p rest ih =>
    by_cases hp : p.1 = k
    · simp [jsSet, hp, jsGet, h, hp.symm ▸ h]
    · simp [jsSet, hp, jsGet, ih]

/-- Lookup after a sequence of JS assignments: the value of the last
assignment to that key, else the initial record's value. -/
theorem jsGet_jsAssignAll {α : Type} :
    ∀ (kvs init : List (String × α)) (k : String),
      jsGet (jsAssignAll init kvs) k
        = match (kvs.filter fun p => p.1 = k).getLast? with
          | some p => some p.2
          | none => jsGet init k := by
  intro kvs
  induction kvs with
  | nil => intro init k; simp [jsAssignAll]
  | cons kv rest ih =>
    intro init k
    have hstep : jsAssignAll init (kv :: rest) = jsAssignAll (jsSet init kv.1 kv.2) rest := by
      simp [jsAssignAll]
    rw [hstep, ih]
    by_cases hk : kv.1 = k
    · have hf : (kv :: rest).filter (fun p => p.1 = k)
          = kv :: rest.filter (fun p => p.1 = k) := by
        simp [List.filter_cons, hk]
      rw [hf, List.getLast?_cons]
      cases hlast : (rest.filter fun p => p.1 = k).getLast? with
      | some p => simp [hlast]
      | none =>
        simp only [hlast, Option.getD_none]
        subst hk
        exact jsGet_jsSet_self init kv.1 kv.2
    · have hf : (kv :: rest).filter (fun p => p.1 = k)
          = rest.filter (fun p => p.1 = k) := by
        simp [List.filter_cons, hk]
      rw [hf]
      cases hlast : (rest.filter fun p => p.1 = k).getLast? with
      | some p => simp [hlast]
      | none =>
        simp only [hlast]
        exact jsGet_jsSet_ne init kv.2 hk

theorem mem_keys_jsSet {α : Type} (r : List (String × α)) (k k' : String) (v : α) :
    k' ∈ (jsSet r k v).map Prod.fst ↔ k' ∈ r.map Prod.fst ∨ k' = k := by
  induction r with
  | nil => simp [jsSet]
  | cons p rest ih =>
    by_cases h : p.1 = k
    · subst h
      simp [jsSet]
      tauto
    · simp [jsSet, h, ih]
      tauto

theorem keys_nodup_jsSet {α : Type} (r : List (String × α)) (k : String) (v : α)
    (h : (r.map Prod.fst).Nodup) : ((jsSet r k v).map Prod.fst).Nodup := by
  induction r with
  | nil => simp [jsSet]
  | cons p rest ih =>
    simp only [List.map_cons, List.nodup_cons] at h
    by_cases hp : p.1 = k
    · subst hp
      simpa [jsSet, List.nodup_cons] using h
    · have hmem : p.1 ∉ (jsSet rest k v).map Prod.fst := by
        rw [mem_keys_jsSet]
        push_neg
        exact ⟨h.1, hp⟩
      simp only [jsSet, if_neg hp, List.map_cons, List.nodup_cons]
      exact ⟨hmem, ih h.2⟩

theorem keys_nodup_jsAssignAll {α : Type} :
    ∀ (kvs init : List (String × α)), (init.map Prod.fst).Nodup →
      ((jsAssignAll init kvs).map Prod.fst).Nodup := by
  intro kvs
  induction kvs with
  | nil => intro init h; simpa [jsAssignAll] using h
  | cons kv rest ih =>
    intro init h
    have hstep : jsAssignAll init (kv :: rest) = jsAssignAll (jsSet init kv.1 kv.2) rest := by
      simp [jsAssignAll]
    rw [hstep]
    exact ih _ (keys_nodup_jsSet init kv.1 kv.2 h)

/-- C10: within one `writeMulti` batch, elements deriving the same cache
key collapse in the `caches` record: the map handed to the driver holds
exactly one record per distinct derived key, whose payload is the
serialization of the last such element in input order — in both the
supplied-identities form and the identities-from-data form. -/
theorem claim_C10 {T : Type} (en : Entry) (ser : T → CacheBody) (toI : T → IdRecord)
    (data : List T) (ids : List IdRecord) (k : String) :
    ((jsAssignAll [] (writeMultiPairsWithIds en ser data ids)).map Prod.fst).Nodup
    ∧ jsGet (jsAssignAll [] (writeMultiPairsWithIds en ser data ids)) k
        = (((ids.zip data).filter fun p => en.buildKey p.1 = k).getLast?).map
            (fun p => ser p.2)
    ∧ ((jsAssignAll [] (writeMultiPairsFromData en ser toI data)).map Prod.fst).Nodup
    ∧ jsGet (jsAssignAll [] (writeMultiPairsFromData en ser toI data)) k
        = ((data.filter fun t => en.buildKey (toI t) = k).getLast?).map
            (fun t => ser t) := by
  refine ⟨keys_nodup_jsAssignAll _ [] (by simp), ?_,
    keys_nodup_jsAssignAll _ [] (by simp), ?_⟩
  · rw [jsGet_jsAssignAll]
    have hf : (writeMultiPairsWithIds en ser data ids).filter (fun p => p.1 = k)
        = ((ids.zip data).filter fun p => en.buildKey p.1 = k).map
            (fun p => (en.buildKey p.1, ser p.2)) := by
      rw [writeMultiPairsWithIds, List.filter_map]
      rfl
    rw [hf, List.getLast?_map]
    cases ((ids.zip data).filter fun p => en.buildKey p.1 = k).getLast? with
    | none => simp [jsGet]
    | some p => simp
  · rw [jsGet_jsAssignAll]
    have hf : (writeMultiPairsFromData en ser toI data).filter (fun p => p.1 = k)
        = (data.filter fun t => en.buildKey (toI t) = k).map
            (fun t => (en.buildKey (toI t), ser t)) := by
      rw [writeMultiPairsFromData, List.filter_map]
      rfl
    rw [hf, List.getLast?_map]
    cases (data.filter fun t => en.buildKey (toI t) = k).getLast? with
    | none => simp [jsGet]
    | some p => simp

end Rache
